import Mathlib

/-!
Verification of the falling-sand artillery game engine (bernard).

The occupancy grid is a `Uint8Array` of `WIDTH * HEIGHT` bytes in the source;
every write is `0` or `255` and every read only tests truthiness, so cells are
modelled as `Bool` (occupied or empty).  All JavaScript numbers are IEEE
doubles, hence rationals; continuous quantities are modelled as `ℚ`.
Transcendental library functions (`Math.cos`, `Math.sin`, `Math.sqrt`,
`Math.PI`) are passed as explicit rational-valued parameters, and the global
`Math.random()` is modelled as an explicit stream `σ : Nat → ℚ` consumed with
a running counter, so every definition stays executable.

Grid dimensions are parameters `W H`; the source fixes them to
`WIDTH = 1024 / 2 = 512`, `HEIGHT = 768 / 2 = 384`.
-/

namespace Bernard

/-- Grid width constant of the source (`types.ts`): `1024 / 2`. -/
def WIDTH : Nat := 512

/-- Grid height constant of the source (`types.ts`): `768 / 2`. -/
def HEIGHT : Nat := 384

/-- The occupancy buffer: cell index `y * W + x` holds `true` when sand is
present (byte `255` in the source) and `false` when empty (byte `0`). -/
abbrev Grid := Nat → Bool

/-- Write one cell of the buffer (`state[i] = v` on the `Uint8Array`). -/
def setCell (g : Grid) (i : Nat) (v : Bool) : Grid :=
  fun j => if j = i then v else g j

/-- Reading `state[i]` on a JS typed array: out-of-range reads give
`undefined`, which is falsy. -/
def gridRead (W H : Nat) (g : Grid) (i : Int) : Bool :=
  if 0 ≤ i ∧ i < (W * H : Nat) then g i.toNat else false

/-- Number of occupied cells of the `W × H` grid. -/
def occCount (W H : Nat) (g : Grid) : Nat :=
  (Finset.range (W * H)).sum (fun i => if g i then 1 else 0)

/-- Height potential: each grain at row `y = i / W` contributes its distance
`H - 1 - y` to the bottom row.  Every downward grain move decreases it. -/
def potential (W H : Nat) (g : Grid) : Nat :=
  (Finset.range (W * H)).sum (fun i => if g i then H - 1 - i / W else 0)

theorem setCell_same (g : Grid) (i : Nat) (v : Bool) : setCell g i v i = v := by
  simp [setCell]

theorem setCell_other (g : Grid) (i j : Nat) (v : Bool) (h : j ≠ i) :
    setCell g i v j = g j := by
  simp [setCell, h]

/-- Rewriting a sum over `Finset.range n` after one point update. -/
theorem sum_range_setCell (n : Nat) (w : Nat → Nat) (g : Grid) (i : Nat)
    (v : Bool) (hi : i < n) :
    (Finset.range n).sum (fun j => if setCell g i v j then w j else 0)
      + (if g i then w i else 0)
    = (Finset.range n).sum (fun j => if g j then w j else 0)
      + (if v then w i else 0) := by
  have hmem : i ∈ Finset.range n := Finset.mem_range.mpr hi
  have h1 := Finset.sum_erase_add (Finset.range n)
    (fun j => if setCell g i v j then w j else 0) hmem
  have h2 := Finset.sum_erase_add (Finset.range n)
    (fun j => if g j then w j else 0) hmem
  have hcong : ((Finset.range n).erase i).sum
      (fun j => if setCell g i v j then w j else 0)
      = ((Finset.range n).erase i).sum (fun j => if g j then w j else 0) := by
    refine Finset.sum_congr rfl (fun j hj => ?_)
    have hji : j ≠ i := Finset.ne_of_mem_erase hj
    rw [setCell_other g i j v hji]
  beta_reduce at h1 h2
  simp only [setCell_same] at h1
  omega

theorem potential_setCell (W H : Nat) (g : Grid) (i : Nat) (v : Bool)
    (hi : i < W * H) :
    potential W H (setCell g i v) + (if g i then H - 1 - i / W else 0)
    = potential W H g + (if v then H - 1 - i / W else 0) := by
  simpa [potential] using
    sum_range_setCell (W * H) (fun j => H - 1 - j / W) g i v hi

theorem occCount_setCell (W H : Nat) (g : Grid) (i : Nat) (v : Bool)
    (hi : i < W * H) :
    occCount W H (setCell g i v) + (if g i then 1 else 0)
    = occCount W H g + (if v then 1 else 0) := by
  simpa [occCount] using sum_range_setCell (W * H) (fun _ => 1) g i v hi

/-- Moving one grain from `(x, y-1)` down to `(x', y)`: clear the source cell
and fill the (empty) destination cell.  This is the shape of every write pair
performed by the in-place pass. -/
def moveGrain (W : Nat) (g : Grid) (y x x' : Nat) : Grid :=
  setCell (setCell g ((y - 1) * W + x) false) (y * W + x') true

theorem mul_add_lt_of_lt {W H y x : Nat} (hy : y < H) (hx : x < W) :
    y * W + x < W * H := by
  calc y * W + x < y * W + W := by omega
    _ = (y + 1) * W := by ring
    _ ≤ H * W := Nat.mul_le_mul_right W hy
    _ = W * H := Nat.mul_comm H W

theorem row_of_index {W y x : Nat} (hx : x < W) : (y * W + x) / W = y := by
  rw [Nat.add_comm, Nat.mul_comm y W, Nat.add_mul_div_left x y (by omega : 0 < W)]
  simp [Nat.div_eq_of_lt hx]

/-- A grain move strictly decreases the potential by exactly one. -/
theorem potential_moveGrain (W H : Nat) (g : Grid) (y x x' : Nat)
    (hx : x < W) (hx' : x' < W) (hy1 : 1 ≤ y) (hyH : y < H)
    (hsrc : g ((y - 1) * W + x) = true) (htgt : g (y * W + x') = false) :
    potential W H (moveGrain W g y x x') + 1 = potential W H g := by
  have hysrc : y - 1 < H := by omega
  have hisrc : (y - 1) * W + x < W * H := mul_add_lt_of_lt hysrc hx
  have hitgt : y * W + x' < W * H := mul_add_lt_of_lt hyH hx'
  have hne : y * W + x' ≠ (y - 1) * W + x := by
    intro h
    have h1 : (y * W + x') / W = y := row_of_index hx'
    have h2 : ((y - 1) * W + x) / W = y - 1 := row_of_index hx
    rw [h] at h1
    omega
  have e1 := potential_setCell W H g ((y - 1) * W + x) false hisrc
  have e2 := potential_setCell W H (setCell g ((y - 1) * W + x) false)
    (y * W + x') true hitgt
  have hmid : setCell g ((y - 1) * W + x) false (y * W + x') = false := by
    rw [setCell_other g _ _ false hne, htgt]
  rw [row_of_index hx] at e1
  rw [row_of_index hx'] at e2
  simp only [hsrc, hmid, if_true, if_false, Bool.false_eq_true] at e1 e2
  unfold moveGrain
  omega

/-- A grain move preserves the occupied-cell count. -/
theorem occCount_moveGrain (W H : Nat) (g : Grid) (y x x' : Nat)
    (hx : x < W) (hx' : x' < W) (hy1 : 1 ≤ y) (hyH : y < H)
    (hsrc : g ((y - 1) * W + x) = true) (htgt : g (y * W + x') = false) :
    occCount W H (moveGrain W g y x x') = occCount W H g := by
  have hysrc : y - 1 < H := by omega
  have hisrc : (y - 1) * W + x < W * H := mul_add_lt_of_lt hysrc hx
  have hitgt : y * W + x' < W * H := mul_add_lt_of_lt hyH hx'
  have hne : y * W + x' ≠ (y - 1) * W + x := by
    intro h
    have h1 : (y * W + x') / W = y := row_of_index hx'
    have h2 : ((y - 1) * W + x) / W = y - 1 := row_of_index hx
    rw [h] at h1
    omega
  have e1 := occCount_setCell W H g ((y - 1) * W + x) false hisrc
  have e2 := occCount_setCell W H (setCell g ((y - 1) * W + x) false)
    (y * W + x') true hitgt
  have hmid : setCell g ((y - 1) * W + x) false (y * W + x') = false := by
    rw [setCell_other g _ _ false hne, htgt]
  simp only [hsrc, hmid, if_true, if_false, Bool.false_eq_true] at e1 e2
  unfold moveGrain
  omega

/-!
In-place settling pass, `updateSand` of `src/systems/sand.ts` (lines 81-136).

The JS double loop runs `y` from `HEIGHT - 1` down to `0` and `x` from `0` to
`WIDTH - 1`; the cell `(x, y-1)` above the scan position is the moving grain.
`x -= 2; continue` after a left move re-examines column `x - 1`, which the
recursion mirrors by passing `x - 1`.  The bound `y < H` is carried as a
proof so that the potential argument justifies termination.
-/

def scanIP (W H : Nat) (g : Grid) (y x : Nat) (hy : y < H) (c : Bool) :
    Grid × Bool :=
  if hx : x < W then
    -- up / left / middle / right reads of the source, inlined so the
    -- branch conditions are available to the termination argument
    if hup : (if 0 < y then g ((y - 1) * W + x) else false) = false then
      -- there is no sand above us
      scanIP W H g y (x + 1) hy c
    else if hblock : ((if 0 < x then g (y * W + (x - 1)) else true)
        && g (y * W + x)
        && (if x < W - 1 then g (y * W + (x + 1)) else true)) = true then
      -- there is sand above us but it cannot move
      scanIP W H g y (x + 1) hy c
    else if hmid : g (y * W + x) = false then
      -- the grain falls straight down
      scanIP W H (moveGrain W g y x x) y (x + 1) hy true
    else if hdiag : (if 0 < x then g (y * W + (x - 1)) else true) = false
        ∧ (if x < W - 1 then g (y * W + (x + 1)) else true) = false then
      -- both diagonals open: the source picks by column parity (x % 2)
      if x % 2 ≠ 0 then
        scanIP W H (moveGrain W g y x (x - 1)) y (x - 1) hy true
      else
        scanIP W H (moveGrain W g y x (x + 1)) y (x + 1) hy true
    else if hleft : (if 0 < x then g (y * W + (x - 1)) else true) = false then
      scanIP W H (moveGrain W g y x (x - 1)) y (x - 1) hy true
    else
      scanIP W H (moveGrain W g y x (x + 1)) y (x + 1) hy true
  else if hzero : y = 0 then
    (g, c)
  else
    scanIP W H g (y - 1) 0 (by omega) c
termination_by 2 * potential W H g + y * (W + 1) + (W - x)
decreasing_by
· omega
· omega
· -- straight-down move
  have hy1 : 0 < y := by
    by_contra hcon
    simp only [Nat.not_lt, Nat.le_zero] at hcon
    subst hcon
    simp at hup
  have hsrc : g ((y - 1) * W + x) = true := by
    simp only [Bool.not_eq_false] at hup
    simpa [hy1] using hup
  have hp := potential_moveGrain W H g y x x hx hx hy1 hy hsrc hmid
  omega
· -- move to the left diagonal (both open, x odd)
  have hy1 : 0 < y := by
    by_contra hcon
    simp only [Nat.not_lt, Nat.le_zero] at hcon
    subst hcon
    simp at hup
  have hsrc : g ((y - 1) * W + x) = true := by
    simp only [Bool.not_eq_false] at hup
    simpa [hy1] using hup
  have hx1 : 0 < x := by
    by_contra hcon
    simp only [Nat.not_lt, Nat.le_zero] at hcon
    subst hcon
    simpa using hdiag.1
  have htgt : g (y * W + (x - 1)) = false := by
    simpa [hx1] using hdiag.1
  have hp := potential_moveGrain W H g y x (x - 1) hx (by omega) hy1 hy hsrc htgt
  omega
· -- move to the right diagonal (both open, x even)
  have hy1 : 0 < y := by
    by_contra hcon
    simp only [Nat.not_lt, Nat.le_zero] at hcon
    subst hcon
    simp at hup
  have hsrc : g ((y - 1) * W + x) = true := by
    simp only [Bool.not_eq_false] at hup
    simpa [hy1] using hup
  have hxr : x < W - 1 := by
    by_contra hcon
    simpa [hcon] using hdiag.2
  have htgt : g (y * W + (x + 1)) = false := by
    simpa [hxr] using hdiag.2
  have hp := potential_moveGrain W H g y x (x + 1) hx (by omega) hy1 hy hsrc htgt
  omega
· -- fall left (only the left diagonal open)
  have hy1 : 0 < y := by
    by_contra hcon
    simp only [Nat.not_lt, Nat.le_zero] at hcon
    subst hcon
    simp at hup
  have hsrc : g ((y - 1) * W + x) = true := by
    simp only [Bool.not_eq_false] at hup
    simpa [hy1] using hup
  have hx1 : 0 < x := by
    by_contra hcon
    simp only [Nat.not_lt, Nat.le_zero] at hcon
    subst hcon
    simp at hleft
  have htgt : g (y * W + (x - 1)) = false := by
    simpa [hx1] using hleft
  have hp := potential_moveGrain W H g y x (x - 1) hx (by omega) hy1 hy hsrc htgt
  omega
· -- fall right (only the right diagonal open)
  have hy1 : 0 < y := by
    by_contra hcon
    simp only [Nat.not_lt, Nat.le_zero] at hcon
    subst hcon
    simp at hup
  have hsrc : g ((y - 1) * W + x) = true := by
    simp only [Bool.not_eq_false] at hup
    simpa [hy1] using hup
  have hmid1 : g (y * W + x) = true := by
    simpa using hmid
  simp only [Bool.not_eq_false] at hleft
  have hxr : x < W - 1 := by
    by_contra hcon
    exact hblock (by simp [hcon, hmid1, hleft])
  have htgt : g (y * W + (x + 1)) = false := by
    by_contra hcon
    simp only [Bool.not_eq_false] at hcon
    exact hblock (by simp [hxr, hcon, hmid1, hleft])
  have hp := potential_moveGrain W H g y x (x + 1) hx (by omega) hy1 hy hsrc htgt
  omega
· have hy1 : 1 ≤ y := by omega
  have hkey : (y - 1) * (W + 1) + (W + 1) = y * (W + 1) := by
    have hcancel : y - 1 + 1 = y := by omega
    calc (y - 1) * (W + 1) + (W + 1) = (y - 1 + 1) * (W + 1) := by ring
      _ = y * (W + 1) := by rw [hcancel]
  omega


/-- One full settling pass of `src/systems/sand.ts` (`updateSand`): start the
scan at the bottom row `HEIGHT - 1`, column `0`, with `changed = false`. -/
def updateSandIP (W H : Nat) (g : Grid) : Grid × Bool :=
  if hH : 0 < H then scanIP W H g (H - 1) 0 (by omega) false else (g, false)

/-- Combined invariants of the in-place scan: it conserves the number of
grains, never increases the potential, its changed flag is monotone, a raised
flag witnesses a strict potential drop, and an unraised flag means the grid
was not touched at all. -/
theorem scanIP_spec (W H : Nat) (g : Grid) (y x : Nat) (hy : y < H) (c : Bool) :
    occCount W H (scanIP W H g y x hy c).1 = occCount W H g ∧
    potential W H (scanIP W H g y x hy c).1 ≤ potential W H g ∧
    (c = true → (scanIP W H g y x hy c).2 = true) ∧
    ((scanIP W H g y x hy c).2 = true →
      c = true ∨ potential W H (scanIP W H g y x hy c).1 < potential W H g) ∧
    ((scanIP W H g y x hy c).2 = false → (scanIP W H g y x hy c).1 = g) := by
  induction g, y, x, hy, c using scanIP.induct W H
  case case1 =>
    rename_i g y x hy c hx hup ih
    simp only [dite_eq_ite] at hup
    rw [scanIP, dif_pos hx, dif_pos hup]
    exact ih
  case case2 =>
    rename_i g y x hy c hx hup hblock ih
    simp only [dite_eq_ite] at hup hblock
    rw [scanIP, dif_pos hx, dif_neg hup, dif_pos hblock]
    exact ih
  case case3 =>
    rename_i g y x hy c hx hup hblock hmid ih
    simp only [dite_eq_ite] at hup hblock
    rw [scanIP, dif_pos hx, dif_neg hup, dif_neg hblock, dif_pos hmid]
    have hy1 : 0 < y := by
      by_contra hcon
      simp only [Nat.not_lt, Nat.le_zero] at hcon
      subst hcon
      simp at hup
    have hsrc : g ((y - 1) * W + x) = true := by
      simp only [Bool.not_eq_false] at hup
      simpa [hy1] using hup
    have hoc := occCount_moveGrain W H g y x x hx hx hy1 hy hsrc hmid
    have hpo := potential_moveGrain W H g y x x hx hx hy1 hy hsrc hmid
    obtain ⟨i1, i2, i3, i4, i5⟩ := ih
    have hflag := i3 rfl
    refine ⟨by rw [i1, hoc], by omega, fun _ => hflag,
      fun _ => Or.inr (by omega), fun hfalse => ?_⟩
    rw [hflag] at hfalse
    cases hfalse
  case case4 =>
    rename_i g y x hy c hx hup hblock hmid hdiag hodd ih
    simp only [dite_eq_ite] at hup hblock hdiag
    rw [scanIP, dif_pos hx, dif_neg hup, dif_neg hblock, dif_neg hmid,
      dif_pos hdiag, if_pos hodd]
    have hy1 : 0 < y := by
      by_contra hcon
      simp only [Nat.not_lt, Nat.le_zero] at hcon
      subst hcon
      simp at hup
    have hsrc : g ((y - 1) * W + x) = true := by
      simp only [Bool.not_eq_false] at hup
      simpa [hy1] using hup
    have hx1 : 0 < x := by
      by_contra hcon
      simp only [Nat.not_lt, Nat.le_zero] at hcon
      subst hcon
      have := hdiag.1
      simp at this
    have htgt : g (y * W + (x - 1)) = false := by
      simpa [hx1] using hdiag.1
    have hoc := occCount_moveGrain W H g y x (x - 1) hx (by omega) hy1 hy hsrc htgt
    have hpo := potential_moveGrain W H g y x (x - 1) hx (by omega) hy1 hy hsrc htgt
    obtain ⟨i1, i2, i3, i4, i5⟩ := ih
    have hflag := i3 rfl
    refine ⟨by rw [i1, hoc], by omega, fun _ => hflag,
      fun _ => Or.inr (by omega), fun hfalse => ?_⟩
    rw [hflag] at hfalse
    cases hfalse
  case case5 =>
    rename_i g y x hy c hx hup hblock hmid hdiag heven ih
    simp only [dite_eq_ite] at hup hblock hdiag
    rw [scanIP, dif_pos hx, dif_neg hup, dif_neg hblock, dif_neg hmid,
      dif_pos hdiag, if_neg heven]
    have hy1 : 0 < y := by
      by_contra hcon
      simp only [Nat.not_lt, Nat.le_zero] at hcon
      subst hcon
      simp at hup
    have hsrc : g ((y - 1) * W + x) = true := by
      simp only [Bool.not_eq_false] at hup
      simpa [hy1] using hup
    have hxr : x < W - 1 := by
      by_contra hcon
      have := hdiag.2
      simp [hcon] at this
    have htgt : g (y * W + (x + 1)) = false := by
      simpa [hxr] using hdiag.2
    have hoc := occCount_moveGrain W H g y x (x + 1) hx (by omega) hy1 hy hsrc htgt
    have hpo := potential_moveGrain W H g y x (x + 1) hx (by omega) hy1 hy hsrc htgt
    obtain ⟨i1, i2, i3, i4, i5⟩ := ih
    have hflag := i3 rfl
    refine ⟨by rw [i1, hoc], by omega, fun _ => hflag,
      fun _ => Or.inr (by omega), fun hfalse => ?_⟩
    rw [hflag] at hfalse
    cases hfalse
  case case6 =>
    rename_i g y x hy c hx hup hblock hmid hdiag hleft ih
    simp only [dite_eq_ite] at hup hblock hdiag hleft
    rw [scanIP, dif_pos hx, dif_neg hup, dif_neg hblock, dif_neg hmid,
      dif_neg hdiag, dif_pos hleft]
    have hy1 : 0 < y := by
      by_contra hcon
      simp only [Nat.not_lt, Nat.le_zero] at hcon
      subst hcon
      simp at hup
    have hsrc : g ((y - 1) * W + x) = true := by
      simp only [Bool.not_eq_false] at hup
      simpa [hy1] using hup
    have hx1 : 0 < x := by
      by_contra hcon
      simp only [Nat.not_lt, Nat.le_zero] at hcon
      subst hcon
      simp at hleft
    have htgt : g (y * W + (x - 1)) = false := by
      simpa [hx1] using hleft
    have hoc := occCount_moveGrain W H g y x (x - 1) hx (by omega) hy1 hy hsrc htgt
    have hpo := potential_moveGrain W H g y x (x - 1) hx (by omega) hy1 hy hsrc htgt
    obtain ⟨i1, i2, i3, i4, i5⟩ := ih
    have hflag := i3 rfl
    refine ⟨by rw [i1, hoc], by omega, fun _ => hflag,
      fun _ => Or.inr (by omega), fun hfalse => ?_⟩
    rw [hflag] at hfalse
    cases hfalse
  case case7 =>
    rename_i g y x hy c hx hup hblock hmid hdiag hleft ih
    simp only [dite_eq_ite] at hup hblock hdiag hleft
    rw [scanIP, dif_pos hx, dif_neg hup, dif_neg hblock, dif_neg hmid,
      dif_neg hdiag, dif_neg hleft]
    have hy1 : 0 < y := by
      by_contra hcon
      simp only [Nat.not_lt, Nat.le_zero] at hcon
      subst hcon
      simp at hup
    have hsrc : g ((y - 1) * W + x) = true := by
      simp only [Bool.not_eq_false] at hup
      simpa [hy1] using hup
    have hmid1 : g (y * W + x) = true := by
      simpa using hmid
    simp only [Bool.not_eq_false] at hleft
    have hxr : x < W - 1 := by
      by_contra hcon
      exact hblock (by simp [hcon, hmid1, hleft])
    have htgt : g (y * W + (x + 1)) = false := by
      by_contra hcon
      simp only [Bool.not_eq_false] at hcon
      exact hblock (by simp [hxr, hcon, hmid1, hleft])
    have hoc := occCount_moveGrain W H g y x (x + 1) hx (by omega) hy1 hy hsrc htgt
    have hpo := potential_moveGrain W H g y x (x + 1) hx (by omega) hy1 hy hsrc htgt
    obtain ⟨i1, i2, i3, i4, i5⟩ := ih
    have hflag := i3 rfl
    refine ⟨by rw [i1, hoc], by omega, fun _ => hflag,
      fun _ => Or.inr (by omega), fun hfalse => ?_⟩
    rw [hflag] at hfalse
    cases hfalse
  case case8 =>
    rename_i g x c hx hy0
    rw [scanIP, dif_neg hx, dif_pos rfl]
    exact ⟨rfl, le_refl _, fun h => h, fun h => Or.inl h, fun _ => rfl⟩
  case case9 =>
    rename_i g y x hy c hx hzero ih
    rw [scanIP, dif_neg hx, dif_neg hzero]
    exact ih


/-- The potential only depends on the cells inside the grid. -/
theorem potential_congr (W H : Nat) (g1 g2 : Grid)
    (h : ∀ i, i < W * H → g1 i = g2 i) :
    potential W H g1 = potential W H g2 := by
  unfold potential
  refine Finset.sum_congr rfl (fun i hi => ?_)
  rw [h i (Finset.mem_range.mp hi)]

/-- The in-place pass conserves the occupied-cell count. -/
theorem updateSandIP_occCount (W H : Nat) (g : Grid) :
    occCount W H (updateSandIP W H g).1 = occCount W H g := by
  by_cases hH : 0 < H
  · simp only [updateSandIP, dif_pos hH]
    exact (scanIP_spec W H g (H - 1) 0 (by omega) false).1
  · simp only [updateSandIP, dif_neg hH]

/-- If the in-place pass reports no change, the grid is untouched. -/
theorem updateSandIP_of_flag_false (W H : Nat) (g : Grid)
    (h : (updateSandIP W H g).2 = false) : (updateSandIP W H g).1 = g := by
  by_cases hH : 0 < H
  · simp only [updateSandIP, dif_pos hH] at h ⊢
    exact (scanIP_spec W H g (H - 1) 0 (by omega) false).2.2.2.2 h
  · simp only [updateSandIP, dif_neg hH]

/-- If the in-place pass reports a change, the potential strictly drops. -/
theorem updateSandIP_of_flag_true (W H : Nat) (g : Grid)
    (h : (updateSandIP W H g).2 = true) :
    potential W H (updateSandIP W H g).1 < potential W H g := by
  by_cases hH : 0 < H
  · simp only [updateSandIP, dif_pos hH] at h ⊢
    rcases (scanIP_spec W H g (H - 1) 0 (by omega) false).2.2.2.1 h with hfalse | hlt
    · cases hfalse
    · exact hlt
  · simp only [updateSandIP, dif_neg hH] at h
    cases h

/-- The in-place pass reports `changed = true` exactly when some cell of the
grid was altered, i.e. when at least one grain actually relocated. -/
theorem updateSandIP_changed_iff (W H : Nat) (g : Grid) :
    (updateSandIP W H g).2 = true ↔
      ∃ i, i < W * H ∧ (updateSandIP W H g).1 i ≠ g i := by
  constructor
  · intro h
    by_contra hno
    push_neg at hno
    have heq : potential W H (updateSandIP W H g).1 = potential W H g :=
      potential_congr W H _ g (fun i hi => hno i hi)
    have hlt := updateSandIP_of_flag_true W H g h
    omega
  · intro ⟨i, _, hne⟩
    by_contra h
    have hfalse : (updateSandIP W H g).2 = false := by
      cases hflag : (updateSandIP W H g).2
      · rfl
      · exact absurd hflag h
    rw [updateSandIP_of_flag_false W H g hfalse] at hne
    exact hne rfl

/-- Iterating the in-place pass (the repeated `settle()` calls of the `sand`
phase). -/
def iterIP (W H : Nat) (g : Grid) : Nat → Grid
  | 0 => g
  | n + 1 => (updateSandIP W H (iterIP W H g n)).1

theorem iterIP_shift (W H : Nat) (g : Grid) (n : Nat) :
    iterIP W H g (n + 1) = iterIP W H (updateSandIP W H g).1 n := by
  induction n with
  | zero => rfl
  | succ n ih =>
    show (updateSandIP W H (iterIP W H g (n + 1))).1 = _
    rw [ih]
    rfl

theorem settleIP_terminates_aux (W H : Nat) :
    ∀ (k : Nat) (g : Grid), potential W H g ≤ k →
      ∃ n, (updateSandIP W H (iterIP W H g n)).2 = false := by
  intro k
  induction k with
  | zero =>
    intro g hg
    refine ⟨0, ?_⟩
    cases hflag : (updateSandIP W H g).2
    · exact hflag
    · have := updateSandIP_of_flag_true W H g hflag
      omega
  | succ k ih =>
    intro g hg
    cases hflag : (updateSandIP W H g).2
    · exact ⟨0, hflag⟩
    · have hlt := updateSandIP_of_flag_true W H g hflag
      obtain ⟨n, hn⟩ := ih (updateSandIP W H g).1 (by omega)
      exact ⟨n + 1, by rw [iterIP_shift]; exact hn⟩

/-- Repeated in-place settling passes reach a pass with `changed = false`. -/
theorem settleIP_terminates (W H : Nat) (g : Grid) :
    ∃ n, (updateSandIP W H (iterIP W H g n)).2 = false :=
  settleIP_terminates_aux W H (potential W H g) g (le_refl _)


/-!
Double-buffered settling pass, `updateSand` of `src/init.ts` (lines 119-177).

`nextState.fill(0)` then a row-major sweep (`y` outer ascending, `x` inner
ascending, i.e. flat index `i = y * W + x` ascending) over the *old* buffer;
every occupied cell writes exactly one cell of the fresh buffer; the
both-diagonals tie is broken by `Math.random() < 0.5`, modelled by the stream
`σ` and its running counter; finally `state.set(nextState)`.
-/

def dbCell (W H : Nat) (σ : Nat → ℚ) (g : Grid) (acc : Grid × Bool × Nat)
    (i : Nat) : Grid × Bool × Nat :=
  if g i = false then acc
  else
    if ((if i / W < H - 1 ∧ 0 < i % W
          then g ((i / W + 1) * W + (i % W - 1)) else true)
        && (if i / W < H - 1 then g ((i / W + 1) * W + i % W) else true)
        && (if i / W < H - 1 ∧ i % W < W - 1
          then g ((i / W + 1) * W + (i % W + 1)) else true)) = true then
      -- sand that cannot fall: stays in place in the next buffer
      (setCell acc.1 i true, acc.2.1, acc.2.2)
    else if (if i / W < H - 1 then g ((i / W + 1) * W + i % W) else true)
        = false then
      (setCell acc.1 ((i / W + 1) * W + i % W) true, true, acc.2.2)
    else if (if i / W < H - 1 ∧ 0 < i % W
          then g ((i / W + 1) * W + (i % W - 1)) else true) = false
        ∧ (if i / W < H - 1 ∧ i % W < W - 1
          then g ((i / W + 1) * W + (i % W + 1)) else true) = false then
      if σ acc.2.2 < 1 / 2 then
        (setCell acc.1 ((i / W + 1) * W + (i % W - 1)) true, true, acc.2.2 + 1)
      else
        (setCell acc.1 ((i / W + 1) * W + (i % W + 1)) true, true, acc.2.2 + 1)
    else if (if i / W < H - 1 ∧ 0 < i % W
          then g ((i / W + 1) * W + (i % W - 1)) else true) = false then
      (setCell acc.1 ((i / W + 1) * W + (i % W - 1)) true, true, acc.2.2)
    else
      (setCell acc.1 ((i / W + 1) * W + (i % W + 1)) true, true, acc.2.2)

/-- The double-buffered pass: returns the new buffer, the changed flag and
the advanced random-stream counter. -/
def updateSandDB (W H : Nat) (σ : Nat → ℚ) (g : Grid) (k : Nat) :
    Grid × Bool × Nat :=
  (List.range (W * H)).foldl (dbCell W H σ g) ((fun _ => false), false, k)

theorem potential_empty (W H : Nat) : potential W H (fun _ => false) = 0 := by
  simp [potential]

theorem occCount_empty (W H : Nat) : occCount W H (fun _ => false) = 0 := by
  simp [occCount]

theorem potential_setCell_le (W H : Nat) (g : Grid) (i : Nat) (hi : i < W * H) :
    potential W H (setCell g i true) ≤ potential W H g + (H - 1 - i / W) := by
  have h := potential_setCell W H g i true hi
  cases hg : g i <;> simp [hg] at h <;> omega

theorem occCount_setCell_le (W H : Nat) (g : Grid) (i : Nat) (hi : i < W * H) :
    occCount W H (setCell g i true) ≤ occCount W H g + 1 := by
  have h := occCount_setCell W H g i true hi
  cases hg : g i <;> simp [hg] at h <;> omega


/-- Prefix of the double-buffered sweep: the accumulator after the first `m`
cells of the row-major loop. -/
def dbRun (W H : Nat) (σ : Nat → ℚ) (g : Grid) (k : Nat) (m : Nat) :
    Grid × Bool × Nat :=
  (List.range m).foldl (dbCell W H σ g) ((fun _ => false), false, k)

theorem dbRun_succ (W H : Nat) (σ : Nat → ℚ) (g : Grid) (k m : Nat) :
    dbRun W H σ g k (m + 1) = dbCell W H σ g (dbRun W H σ g k m) m := by
  unfold dbRun
  rw [List.range_succ, List.foldl_append]
  rfl

theorem updateSandDB_eq_dbRun (W H : Nat) (σ : Nat → ℚ) (g : Grid) (k : Nat) :
    updateSandDB W H σ g k = dbRun W H σ g k (W * H) := rfl

set_option maxHeartbeats 1600000 in
/-- Combined invariants of the double-buffered sweep prefix: the new buffer's
potential (plus one if the changed flag is up) is bounded by the weight of the
grains processed so far, its grain count is bounded by the grains processed,
and an unraised flag means every processed grain stayed put, so the new
buffer agrees with the old one below the scan position. -/
theorem dbRun_spec (W H : Nat) (σ : Nat → ℚ) (g : Grid) (k : Nat) :
    ∀ m, m ≤ W * H →
    potential W H (dbRun W H σ g k m).1
        + (if (dbRun W H σ g k m).2.1 then 1 else 0)
      ≤ (Finset.range m).sum (fun i => if g i then H - 1 - i / W else 0) ∧
    occCount W H (dbRun W H σ g k m).1
      ≤ (Finset.range m).sum (fun i => if g i then 1 else 0) ∧
    ((dbRun W H σ g k m).2.1 = false →
      ∀ j, (dbRun W H σ g k m).1 j = (decide (j < m) && g j)) := by
  intro m
  induction m with
  | zero =>
    intro _
    refine ⟨?_, ?_, ?_⟩
    · simp [dbRun, potential_empty]
    · simp [dbRun, occCount_empty]
    · intro _ j
      simp [dbRun]
  | succ m ih =>
    intro hm1
    have hm : m < W * H := by omega
    have hW : 0 < W := by
      rcases Nat.eq_zero_or_pos W with h0 | h0
      · subst h0
        simp at hm
      · exact h0
    obtain ⟨p1, p2, p3⟩ := ih (by omega)
    rw [dbRun_succ]
    rw [Finset.sum_range_succ, Finset.sum_range_succ]
    set A := dbRun W H σ g k m with hA
    by_cases c0 : g m = false
    · -- cell is empty: skipped
      have hstep : dbCell W H σ g A m = A := by
        rw [dbCell, if_pos c0]
      rw [hstep]
      refine ⟨by simp only [c0, Bool.false_eq_true, if_false, add_zero]; omega,
        by simp only [c0, Bool.false_eq_true, if_false, add_zero]; omega, ?_⟩
      intro hfl j
      have hj3 := p3 hfl j
      rcases Nat.lt_trichotomy j m with hj | hj | hj
      · simpa [Nat.lt_succ_of_lt hj, hj] using hj3
      · subst hj
        simpa [Nat.lt_succ_self, c0] using hj3
      · have h1 : ¬j < m := by omega
        have h2 : ¬j < m + 1 := by omega
        simpa [h1, h2] using hj3
    · simp only [Bool.not_eq_false] at c0
      by_cases c1 : ((if m / W < H - 1 ∧ 0 < m % W
            then g ((m / W + 1) * W + (m % W - 1)) else true)
          && (if m / W < H - 1 then g ((m / W + 1) * W + m % W) else true)
          && (if m / W < H - 1 ∧ m % W < W - 1
            then g ((m / W + 1) * W + (m % W + 1)) else true)) = true
      · -- blocked: the grain stays at its own cell
        have hstep : dbCell W H σ g A m
            = (setCell A.1 m true, A.2.1, A.2.2) := by
          rw [dbCell, if_neg (by simp [c0]), if_pos c1]
        rw [hstep]
        have hb := potential_setCell_le W H A.1 m hm
        have hc := occCount_setCell_le W H A.1 m hm
        refine ⟨by simp only [c0, eq_self_iff_true, if_true]; omega,
          by simp only [c0, eq_self_iff_true, if_true]; omega, ?_⟩
        intro hfl j
        have hj3 := p3 hfl j
        dsimp only
        rcases Nat.lt_trichotomy j m with hj | hj | hj
        · have hne : j ≠ m := by omega
          rw [setCell_other _ _ _ _ hne, hj3]
          simp [hj, Nat.lt_succ_of_lt hj]
        · subst hj
          rw [setCell_same]
          simp [c0]
        · have hne : j ≠ m := by omega
          have h1 : ¬j < m := by omega
          have h2 : ¬j < m + 1 := by omega
          rw [setCell_other _ _ _ _ hne, hj3]
          simp [h1, h2]
      · -- the grain moves: all remaining branches write one cell of row
        -- `m / W + 1` and raise the changed flag
        have hmove : ∃ x', x' < W ∧ dbCell W H σ g A m
            = (setCell A.1 ((m / W + 1) * W + x') true, true, (dbCell W H σ g A m).2.2)
            ∧ m / W < H - 1 := by
          by_cases c2 : (if m / W < H - 1 then g ((m / W + 1) * W + m % W)
              else true) = false
          · have hyH : m / W < H - 1 := by
              by_contra hcon
              simp [hcon] at c2
            refine ⟨m % W, Nat.mod_lt m hW, ?_, hyH⟩
            rw [dbCell, if_neg (by simp [c0]), if_neg c1, if_pos c2]
          · by_cases c3 : (if m / W < H - 1 ∧ 0 < m % W
                then g ((m / W + 1) * W + (m % W - 1)) else true) = false
              ∧ (if m / W < H - 1 ∧ m % W < W - 1
                then g ((m / W + 1) * W + (m % W + 1)) else true) = false
            · have hyH : m / W < H - 1 := by
                by_contra hcon
                have := c3.1
                simp [hcon] at this
              by_cases cr : σ A.2.2 < 1 / 2
              · refine ⟨m % W - 1, by have := Nat.mod_lt m hW; omega, ?_, hyH⟩
                rw [dbCell, if_neg (by simp [c0]), if_neg c1, if_neg c2,
                  if_pos c3, if_pos cr]
              · refine ⟨m % W + 1, ?_, ?_, hyH⟩
                · have hxr : m % W < W - 1 := by
                    by_contra hcon
                    have := c3.2
                    simp [hcon] at this
                  omega
                · rw [dbCell, if_neg (by simp [c0]), if_neg c1, if_neg c2,
                    if_pos c3, if_neg cr]
            · by_cases c4 : (if m / W < H - 1 ∧ 0 < m % W
                  then g ((m / W + 1) * W + (m % W - 1)) else true) = false
              · have hyH : m / W < H - 1 := by
                  by_contra hcon
                  simp [hcon] at c4
                refine ⟨m % W - 1, by have := Nat.mod_lt m hW; omega, ?_, hyH⟩
                rw [dbCell, if_neg (by simp [c0]), if_neg c1, if_neg c2,
                  if_neg c3, if_pos c4]
              · have hmid1 := c2
                simp only [Bool.not_eq_false] at hmid1
                have hleft1 := c4
                simp only [Bool.not_eq_false] at hleft1
                have hyH : m / W < H - 1 := by
                  by_contra hcon
                  exact c1 (by simp [hcon])
                have hxr : m % W < W - 1 := by
                  by_contra hcon
                  exact c1 (by simp [hleft1, hmid1, hcon])
                refine ⟨m % W + 1, by omega, ?_, hyH⟩
                rw [dbCell, if_neg (by simp [c0]), if_neg c1, if_neg c2,
                  if_neg c3, if_neg c4]
        obtain ⟨x', hx', hstep, hyH⟩ := hmove
        have hyH1 : m / W + 1 < H := by
          generalize m / W = q at hyH ⊢
          omega
        have ht : (m / W + 1) * W + x' < W * H :=
          mul_add_lt_of_lt hyH1 hx'
        have hrow : ((m / W + 1) * W + x') / W = m / W + 1 := row_of_index hx'
        have hb := potential_setCell_le W H A.1 ((m / W + 1) * W + x') ht
        have hc := occCount_setCell_le W H A.1 ((m / W + 1) * W + x') ht
        rw [hrow] at hb
        rw [hstep]
        refine ⟨?_, ?_, ?_⟩
        · simp only [c0, eq_self_iff_true, if_true]
          generalize m / W = q at hb hyH ⊢
          omega
        · simp only [c0, eq_self_iff_true, if_true]
          omega
        · intro hfl
          simp at hfl


/-- The double-buffered pass never increases the occupied-cell count (two
grains may merge when they fall into the same destination cell). -/
theorem updateSandDB_occCount_le (W H : Nat) (σ : Nat → ℚ) (g : Grid) (k : Nat) :
    occCount W H (updateSandDB W H σ g k).1 ≤ occCount W H g :=
  (dbRun_spec W H σ g k (W * H) (le_refl _)).2.1

/-- If the double-buffered pass reports a change, the potential strictly
drops. -/
theorem updateSandDB_of_flag_true (W H : Nat) (σ : Nat → ℚ) (g : Grid) (k : Nat)
    (h : (updateSandDB W H σ g k).2.1 = true) :
    potential W H (updateSandDB W H σ g k).1 < potential W H g := by
  have hp := (dbRun_spec W H σ g k (W * H) (le_refl _)).1
  rw [updateSandDB_eq_dbRun] at h
  rw [h] at hp
  simp only [if_true] at hp
  rw [updateSandDB_eq_dbRun]
  exact lt_of_lt_of_le (Nat.lt_succ_self _) (by simpa [potential] using hp)

/-- If the double-buffered pass reports no change, every cell inside the grid
is copied unchanged into the next buffer. -/
theorem updateSandDB_of_flag_false (W H : Nat) (σ : Nat → ℚ) (g : Grid) (k : Nat)
    (h : (updateSandDB W H σ g k).2.1 = false) :
    ∀ j, j < W * H → (updateSandDB W H σ g k).1 j = g j := by
  intro j hj
  have hp := (dbRun_spec W H σ g k (W * H) (le_refl _)).2.2 h j
  rw [updateSandDB_eq_dbRun, hp]
  simp [hj]

/-- The double-buffered pass reports `changed = true` exactly when the next
buffer differs from the old one inside the grid. -/
theorem updateSandDB_changed_iff (W H : Nat) (σ : Nat → ℚ) (g : Grid) (k : Nat) :
    (updateSandDB W H σ g k).2.1 = true ↔
      ∃ i, i < W * H ∧ (updateSandDB W H σ g k).1 i ≠ g i := by
  constructor
  · intro h
    by_contra hno
    push_neg at hno
    have heq : potential W H (updateSandDB W H σ g k).1 = potential W H g :=
      potential_congr W H _ g (fun i hi => hno i hi)
    have hlt := updateSandDB_of_flag_true W H σ g k h
    omega
  · intro ⟨i, hi, hne⟩
    by_contra h
    have hfalse : (updateSandDB W H σ g k).2.1 = false := by
      cases hflag : (updateSandDB W H σ g k).2.1
      · rfl
      · exact absurd hflag h
    exact hne (updateSandDB_of_flag_false W H σ g k hfalse i hi)

/-- Iterating the double-buffered pass, threading the grid and the random
counter. -/
def iterDB (W H : Nat) (σ : Nat → ℚ) (g : Grid) (k : Nat) : Nat → Grid × Nat
  | 0 => (g, k)
  | n + 1 =>
    let p := iterDB W H σ g k n
    ((updateSandDB W H σ p.1 p.2).1, (updateSandDB W H σ p.1 p.2).2.2)

theorem iterDB_shift (W H : Nat) (σ : Nat → ℚ) (g : Grid) (k : Nat) (n : Nat) :
    iterDB W H σ g k (n + 1)
      = iterDB W H σ (updateSandDB W H σ g k).1 (updateSandDB W H σ g k).2.2 n := by
  induction n with
  | zero => rfl
  | succ n ih =>
    show ((updateSandDB W H σ (iterDB W H σ g k (n + 1)).1
        (iterDB W H σ g k (n + 1)).2).1, _) = _
    rw [ih]
    rfl

theorem settleDB_terminates_aux (W H : Nat) (σ : Nat → ℚ) :
    ∀ (j : Nat) (g : Grid) (k : Nat), potential W H g ≤ j →
      ∃ n, (updateSandDB W H σ (iterDB W H σ g k n).1
        (iterDB W H σ g k n).2).2.1 = false := by
  intro j
  induction j with
  | zero =>
    intro g k hg
    refine ⟨0, ?_⟩
    cases hflag : (updateSandDB W H σ g k).2.1
    · exact hflag
    · have := updateSandDB_of_flag_true W H σ g k hflag
      omega
  | succ j ih =>
    intro g k hg
    cases hflag : (updateSandDB W H σ g k).2.1
    · exact ⟨0, hflag⟩
    · have hlt := updateSandDB_of_flag_true W H σ g k hflag
      obtain ⟨n, hn⟩ :=
        ih (updateSandDB W H σ g k).1 (updateSandDB W H σ g k).2.2 (by omega)
      exact ⟨n + 1, by rw [iterDB_shift]; exact hn⟩

/-- Repeated double-buffered passes reach a pass with `changed = false`, for
every grid and every random stream. -/
theorem settleDB_terminates (W H : Nat) (σ : Nat → ℚ) (g : Grid) (k : Nat) :
    ∃ n, (updateSandDB W H σ (iterDB W H σ g k n).1
      (iterDB W H σ g k n).2).2.1 = false :=
  settleDB_terminates_aux W H σ (potential W H g) g k (le_refl _)


/-!
Concrete grids for the settling counterexamples (small instances of the
parametric `W × H` grid; the pass definitions are uniform in `W, H`).
-/

/-- 3 × 3 grid: grains at `(0,0)`, `(2,0)`, `(0,1)`, `(2,1)` and a full bottom
row.  Flat indices `{0, 2, 3, 5, 6, 7, 8}`. -/
def gMerge : Grid := fun i =>
  decide (i = 0 ∨ i = 2 ∨ i = 3 ∨ i = 5 ∨ i = 6 ∨ i = 7 ∨ i = 8)

/-- 4 × 3 grid: one grain at odd column `(1,0)` resting on `(1,1)` with both
diagonals `(0,1)` and `(2,1)` free, bottom row full. -/
def gOdd : Grid := fun i =>
  decide (i = 1 ∨ i = 5 ∨ i = 8 ∨ i = 9 ∨ i = 10 ∨ i = 11)

/-- 4 × 3 grid: one grain at even column `(2,0)` resting on `(2,1)` with both
diagonals `(1,1)` and `(3,1)` free, bottom row full. -/
def gEven : Grid := fun i =>
  decide (i = 2 ∨ i = 6 ∨ i = 8 ∨ i = 9 ∨ i = 10 ∨ i = 11)

/-- C1: for every finite occupancy grid, iterating the settling pass reaches,
after finitely many passes, a pass that returns `changed = false`; and a
single pass returns `changed = true` iff at least one grain actually
relocated (the resulting buffer differs from the input buffer inside the
grid).  This holds for the in-place pass of `systems/sand.ts` and for the
double-buffered pass of `init.ts`, the latter for every random stream. -/
theorem c1_settle_terminates_and_changed_iff :
    (∀ (W H : Nat) (g : Grid),
      ∃ n, (updateSandIP W H (iterIP W H g n)).2 = false) ∧
    (∀ (W H : Nat) (g : Grid),
      (updateSandIP W H g).2 = true ↔
        ∃ i, i < W * H ∧ (updateSandIP W H g).1 i ≠ g i) ∧
    (∀ (W H : Nat) (σ : Nat → ℚ) (g : Grid) (k : Nat),
      ∃ n, (updateSandDB W H σ (iterDB W H σ g k n).1
        (iterDB W H σ g k n).2).2.1 = false) ∧
    (∀ (W H : Nat) (σ : Nat → ℚ) (g : Grid) (k : Nat),
      (updateSandDB W H σ g k).2.1 = true ↔
        ∃ i, i < W * H ∧ (updateSandDB W H σ g k).1 i ≠ g i) :=
  ⟨settleIP_terminates, updateSandIP_changed_iff,
    settleDB_terminates, updateSandDB_changed_iff⟩

/-- C2 counterexample: the double-buffered pass of `init.ts` does not
preserve the occupied-cell count.  On `gMerge` the grains at `(0,0)` and
`(2,0)` both fall diagonally into `(1,1)` (both moves are forced, no random
draw is consumed), so 7 grains become 6. -/
theorem c2_counterexample_db_pass_loses_a_grain :
    occCount 3 3 gMerge = 7 ∧
    occCount 3 3 (updateSandDB 3 3 (fun _ => 0) gMerge 0).1 = 6 := by
  constructor
  · decide
  · decide

/-- C2 amended: the in-place pass (`systems/sand.ts`) preserves the
occupied-cell count exactly for every grid; the double-buffered pass
(`init.ts`) never increases it but can strictly decrease it when two grains
fall into the same destination cell. -/
theorem c2_amended_grain_conservation :
    (∀ (W H : Nat) (g : Grid),
      occCount W H (updateSandIP W H g).1 = occCount W H g) ∧
    (∀ (W H : Nat) (σ : Nat → ℚ) (g : Grid) (k : Nat),
      occCount W H (updateSandDB W H σ g k).1 ≤ occCount W H g) :=
  ⟨updateSandIP_occCount, updateSandDB_occCount_le⟩

/-- C3 counterexample: in the in-place pass of `systems/sand.ts` the
destination of a grain whose cell below is blocked and whose two diagonals
are both free is not a uniform random draw: the pass takes no random source
at all and picks by column parity.  The odd-column grain of `gOdd` always
lands on the left diagonal `(0,1)`, the even-column grain of `gEven` always
lands on the right diagonal `(3,1)`. -/
theorem c3_counterexample_parity_tie_break :
    (updateSandIP 4 3 gOdd).1 4 = true ∧
    (updateSandIP 4 3 gOdd).1 6 = false ∧
    (updateSandIP 4 3 gEven).1 7 = true ∧
    (updateSandIP 4 3 gEven).1 5 = false := by
  refine ⟨?_, ?_, ?_, ?_⟩ <;>
    simp [updateSandIP, scanIP, moveGrain, setCell, gOdd, gEven]

/-- C3 amended: in the double-buffered pass (`init.ts`) the two-diagonal tie
is broken by a fresh `Math.random() < 0.5` draw (draw below one half falls
left, otherwise right), while in the in-place pass (`systems/sand.ts`) the
choice is deterministic by column parity: odd column falls left, even column
falls right; the draws come from the global `Math.random`, not from an
injectable source. -/
theorem c3_amended_tie_break_behaviour :
    (updateSandDB 4 3 (fun _ => 0) gOdd 0).1 4 = true ∧
    (updateSandDB 4 3 (fun _ => 0) gOdd 0).1 6 = false ∧
    (updateSandDB 4 3 (fun _ => 1) gOdd 0).1 6 = true ∧
    (updateSandDB 4 3 (fun _ => 1) gOdd 0).1 4 = false ∧
    (updateSandIP 4 3 gOdd).1 4 = true ∧
    (updateSandIP 4 3 gEven).1 7 = true := by
  refine ⟨?_, ?_, ?_, ?_, ?_, ?_⟩
  · norm_num [updateSandDB, dbCell, setCell, gOdd, List.range, List.range.loop]
  · norm_num [updateSandDB, dbCell, setCell, gOdd, List.range, List.range.loop]
  · norm_num [updateSandDB, dbCell, setCell, gOdd, List.range, List.range.loop]
  · norm_num [updateSandDB, dbCell, setCell, gOdd, List.range, List.range.loop]
  · simp [updateSandIP, scanIP, moveGrain, setCell, gOdd]
  · simp [updateSandIP, scanIP, moveGrain, setCell, gEven]

/-- C4 counterexample: the two update disciplines do not produce the same
settling result.  On `gMerge` each discipline converges after one changed
pass (the second pass reports `changed = false`), but the in-place result
keeps the grain at `(2,0)` (flat index 2) while the double-buffered result
loses it into the merged cell. -/
theorem c4_counterexample_disciplines_disagree :
    (updateSandIP 3 3 (iterIP 3 3 gMerge 1)).2 = false ∧
    (updateSandDB 3 3 (fun _ => 0) (iterDB 3 3 (fun _ => 0) gMerge 0 1).1
      (iterDB 3 3 (fun _ => 0) gMerge 0 1).2).2.1 = false ∧
    iterIP 3 3 gMerge 1 2 = true ∧
    (iterDB 3 3 (fun _ => 0) gMerge 0 1).1 2 = false := by
  refine ⟨?_, by decide, ?_, by decide⟩ <;>
    simp [iterIP, updateSandIP, scanIP, moveGrain, setCell, gMerge]

/-- C4 amended: each discipline converges on every finite grid (and every
random stream), but the converged terrains can differ: on `gMerge` both
discipline's second pass reports `changed = false`, yet the settled grids
disagree at flat index 2. -/
theorem c4_amended_convergence_but_different_results :
    (∀ (W H : Nat) (g : Grid),
      ∃ n, (updateSandIP W H (iterIP W H g n)).2 = false) ∧
    (∀ (W H : Nat) (σ : Nat → ℚ) (g : Grid) (k : Nat),
      ∃ n, (updateSandDB W H σ (iterDB W H σ g k n).1
        (iterDB W H σ g k n).2).2.1 = false) ∧
    (∃ (g : Grid) (σ : Nat → ℚ),
      (updateSandIP 3 3 (iterIP 3 3 g 1)).2 = false ∧
      (updateSandDB 3 3 σ (iterDB 3 3 σ g 0 1).1
        (iterDB 3 3 σ g 0 1).2).2.1 = false ∧
      iterIP 3 3 g 1 2 ≠ (iterDB 3 3 σ g 0 1).1 2) := by
  refine ⟨settleIP_terminates, settleDB_terminates, gMerge, fun _ => 0,
    ?_, by decide, ?_⟩
  · simp [iterIP, updateSandIP, scanIP, moveGrain, setCell, gMerge]
  · have h1 : iterIP 3 3 gMerge 1 2 = true := by
      simp [iterIP, updateSandIP, scanIP, moveGrain, setCell, gMerge]
    have h2 : (iterDB 3 3 (fun _ => 0) gMerge 0 1).1 2 = false := by decide
    rw [h1, h2]
    simp


/-!
Crater removal, `processExplosions` of `src/systems/hud.ts` (lines 327-354)
and `src/init.ts` (lines 258-285): for each explosion, scan the clipped
bounding box and clear every cell whose squared distance to the explosion
point is at most `radius * radius`.
-/

/-- An explosion record (`types.ts`): position and blast radius. -/
structure Explosion where
  x : ℚ
  y : ℚ
  radius : ℚ

/-- Ascending run of `n` consecutive integers starting at `lo`. -/
def rangeIIAux (lo : Int) : Nat → List Int
  | 0 => []
  | n + 1 => lo :: rangeIIAux (lo + 1) n

/-- The integer interval `[lo, hi]` walked by a JS
`for (let v = lo; v <= hi; v++)` loop (empty when `hi < lo`). -/
def rangeII (lo hi : Int) : List Int :=
  rangeIIAux lo (hi + 1 - lo).toNat

theorem mem_rangeIIAux {v : Int} :
    ∀ (n : Nat) (lo : Int), v ∈ rangeIIAux lo n ↔ lo ≤ v ∧ v < lo + n := by
  intro n
  induction n with
  | zero =>
    intro lo
    simp only [rangeIIAux, List.not_mem_nil, false_iff]
    omega
  | succ n ih =>
    intro lo
    simp only [rangeIIAux, List.mem_cons, ih (lo + 1)]
    constructor
    · rintro (rfl | ⟨h1, h2⟩) <;> omega
    · intro ⟨h1, h2⟩
      by_cases h : v = lo
      · exact Or.inl h
      · exact Or.inr ⟨by omega, by omega⟩

theorem mem_rangeII {lo hi v : Int} : v ∈ rangeII lo hi ↔ lo ≤ v ∧ v ≤ hi := by
  rw [rangeII, mem_rangeIIAux]
  omega

/-- The squared-distance test of the crater scan
(`distanceSquared <= radius * radius`). -/
def craterHit (x y radius : ℚ) (cx cy : Int) : Prop :=
  ((cx : ℚ) - x) * ((cx : ℚ) - x) + ((cy : ℚ) - y) * ((cy : ℚ) - y)
    ≤ radius * radius

instance (x y radius : ℚ) (cx cy : Int) : Decidable (craterHit x y radius cx cy) := by
  unfold craterHit
  infer_instance

/-- `clearCircle(cx, cy, radius)`: clear every cell of the clipped bounding
box whose integer coordinate passes the squared-distance test.  The bounds
are `max(0, floor(x - radius))`, `min(W - 1, ceil(x + radius))` and the
analogous pair for `y`, exactly as in `processExplosions`. -/
def clearCircle (W H : Nat) (g : Grid) (x y radius : ℚ) : Grid :=
  (rangeII (max 0 ⌊y - radius⌋) (min ((H : Int) - 1) ⌈y + radius⌉)).foldl
    (fun acc cy =>
      (rangeII (max 0 ⌊x - radius⌋) (min ((W : Int) - 1) ⌈x + radius⌉)).foldl
        (fun acc2 cx =>
          if craterHit x y radius cx cy then
            setCell acc2 (cy * (W : Int) + cx).toNat false
          else acc2)
        acc)
    g

/-- `processExplosions`: apply the crater scan of every pending explosion to
the sand buffer, in list order. -/
def processExplosions (W H : Nat) (es : List Explosion) (g : Grid) : Grid :=
  es.foldl (fun acc e => clearCircle W H acc e.x e.y e.radius) g

/-- Cells cleared by `clearCircle`: inside the clipped bounding box and
passing the squared-distance test, in terms of the cell's column `i % W` and
row `i / W`. -/
def craterCovers (W H : Nat) (x y radius : ℚ) (i : Nat) : Prop :=
  max 0 ⌊x - radius⌋ ≤ ((i % W : Nat) : Int)
  ∧ ((i % W : Nat) : Int) ≤ min ((W : Int) - 1) ⌈x + radius⌉
  ∧ max 0 ⌊y - radius⌋ ≤ ((i / W : Nat) : Int)
  ∧ ((i / W : Nat) : Int) ≤ min ((H : Int) - 1) ⌈y + radius⌉
  ∧ craterHit x y radius ((i % W : Nat) : Int) ((i / W : Nat) : Int)

instance (W H : Nat) (x y radius : ℚ) (i : Nat) :
    Decidable (craterCovers W H x y radius i) := by
  unfold craterCovers
  infer_instance

theorem col_of_index {W y x : Nat} (hx : x < W) : (y * W + x) % W = x := by
  rw [Nat.add_comm, Nat.mul_comm y W, Nat.add_mul_mod_self_left,
    Nat.mod_eq_of_lt hx]

/-- Lookup through the inner (column) loop of the crater scan. -/
theorem crater_row_lookup (W : Nat) (x y radius : ℚ) (cy : Int)
    (L : List Int) (acc : Grid) (j : Nat) :
    (L.foldl (fun acc2 cx =>
      if craterHit x y radius cx cy then
        setCell acc2 (cy * (W : Int) + cx).toNat false
      else acc2) acc) j
    = if (∃ cx ∈ L, craterHit x y radius cx cy
          ∧ (cy * (W : Int) + cx).toNat = j) then false else acc j := by
  induction L generalizing acc with
  | nil => simp
  | cons c L ih =>
    rw [List.foldl_cons, ih]
    by_cases hex : ∃ cx ∈ L, craterHit x y radius cx cy
        ∧ (cy * (W : Int) + cx).toNat = j
    · rw [if_pos hex]
      obtain ⟨a, ha, hhit⟩ := hex
      have hex2 : ∃ cx ∈ c :: L, craterHit x y radius cx cy
          ∧ (cy * (W : Int) + cx).toNat = j :=
        ⟨a, List.mem_cons_of_mem c ha, hhit⟩
      rw [if_pos hex2]
    · rw [if_neg hex]
      by_cases hcj : craterHit x y radius c cy ∧ (cy * (W : Int) + c).toNat = j
      · have hex2 : ∃ cx ∈ c :: L, craterHit x y radius cx cy
            ∧ (cy * (W : Int) + cx).toNat = j :=
          ⟨c, List.mem_cons_self c L, hcj⟩
        rw [if_pos hex2, if_pos hcj.1, ← hcj.2, setCell_same]
      · have hno : ¬ ∃ cx ∈ c :: L, craterHit x y radius cx cy
            ∧ (cy * (W : Int) + cx).toNat = j := by
          intro ⟨a, ha, hhit⟩
          rcases List.mem_cons.mp ha with rfl | ha2
          · exact hcj hhit
          · exact hex ⟨a, ha2, hhit⟩
        rw [if_neg hno]
        by_cases hc : craterHit x y radius c cy
        · have hj : j ≠ (cy * (W : Int) + c).toNat := by
            intro h
            exact hcj ⟨hc, h.symm⟩
          rw [if_pos hc, setCell_other _ _ _ _ hj]
        · rw [if_neg hc]

/-- Lookup through the full crater scan of one explosion. -/
theorem crater_lookup (W : Nat) (x y radius : ℚ) (Lx : List Int)
    (L : List Int) (g : Grid) (j : Nat) :
    (L.foldl (fun acc cy =>
      (Lx.foldl (fun acc2 cx =>
        if craterHit x y radius cx cy then
          setCell acc2 (cy * (W : Int) + cx).toNat false
        else acc2) acc)) g) j
    = if (∃ cy ∈ L, ∃ cx ∈ Lx, craterHit x y radius cx cy
          ∧ (cy * (W : Int) + cx).toNat = j) then false else g j := by
  induction L generalizing g with
  | nil => simp
  | cons c L ih =>
    rw [List.foldl_cons, ih, crater_row_lookup]
    by_cases hex : ∃ cy ∈ L, ∃ cx ∈ Lx, craterHit x y radius cx cy
        ∧ (cy * (W : Int) + cx).toNat = j
    · rw [if_pos hex]
      obtain ⟨a, ha, hrest⟩ := hex
      have hex2 : ∃ cy ∈ c :: L, ∃ cx ∈ Lx, craterHit x y radius cx cy
          ∧ (cy * (W : Int) + cx).toNat = j :=
        ⟨a, List.mem_cons_of_mem c ha, hrest⟩
      rw [if_pos hex2]
    · rw [if_neg hex]
      by_cases hc : ∃ cx ∈ Lx, craterHit x y radius cx c
          ∧ (c * (W : Int) + cx).toNat = j
      · have hex2 : ∃ cy ∈ c :: L, ∃ cx ∈ Lx, craterHit x y radius cx cy
            ∧ (cy * (W : Int) + cx).toNat = j :=
          ⟨c, List.mem_cons_self c L, hc⟩
        rw [if_pos hc, if_pos hex2]
      · have hno : ¬ ∃ cy ∈ c :: L, ∃ cx ∈ Lx, craterHit x y radius cx cy
            ∧ (cy * (W : Int) + cx).toNat = j := by
          intro ⟨a, ha, hrest⟩
          rcases List.mem_cons.mp ha with rfl | ha2
          · exact hc hrest
          · exact hex ⟨a, ha2, hrest⟩
        rw [if_neg hc, if_neg hno]

/-- Pointwise characterisation of the crater scan: inside the grid, exactly
the covered cells are cleared and every other cell is left unchanged. -/
theorem clearCircle_lookup (W H : Nat) (g : Grid) (x y radius : ℚ) (i : Nat)
    (hi : i < W * H) :
    clearCircle W H g x y radius i
      = if craterCovers W H x y radius i then false else g i := by
  have hW : 0 < W := by
    rcases Nat.eq_zero_or_pos W with h0 | h0
    · subst h0
      simp at hi
    · exact h0
  unfold clearCircle
  rw [crater_lookup]
  congr 1
  apply propext
  constructor
  · intro ⟨cy, hcy, cx, hcx, hhit, hj⟩
    rw [mem_rangeII] at hcy hcx
    have hcy0 : 0 ≤ cy := le_trans (le_max_left _ _) hcy.1
    have hcx0 : 0 ≤ cx := le_trans (le_max_left _ _) hcx.1
    have hcyH : cy ≤ (H : Int) - 1 := le_trans hcy.2 (min_le_left _ _)
    have hcxW : cx ≤ (W : Int) - 1 := le_trans hcx.2 (min_le_left _ _)
    have hceq : ((cy.toNat * W + cx.toNat : Nat) : Int) = cy * (W : Int) + cx := by
      push_cast
      rw [Int.toNat_of_nonneg hcy0, Int.toNat_of_nonneg hcx0]
    have hiv : i = cy.toNat * W + cx.toNat := by
      have h' := hj
      rw [← hceq] at h'
      omega
    have hxlt : cx.toNat < W := by omega
    have hcol : i % W = cx.toNat := by
      rw [hiv]
      exact col_of_index hxlt
    have hrow : i / W = cy.toNat := by
      rw [hiv]
      exact row_of_index hxlt
    refine ⟨?_, ?_, ?_, ?_, ?_⟩
    · rw [hcol]
      have : (cx.toNat : Int) = cx := by omega
      rw [this]
      exact hcx.1
    · rw [hcol]
      have : (cx.toNat : Int) = cx := by omega
      rw [this]
      exact hcx.2
    · rw [hrow]
      have : (cy.toNat : Int) = cy := by omega
      rw [this]
      exact hcy.1
    · rw [hrow]
      have : (cy.toNat : Int) = cy := by omega
      rw [this]
      exact hcy.2
    · have hcx' : (cx.toNat : Int) = cx := by omega
      have hcy' : (cy.toNat : Int) = cy := by omega
      rw [hcol, hrow, hcx', hcy']
      exact hhit
  · intro ⟨h1, h2, h3, h4, h5⟩
    refine ⟨((i / W : Nat) : Int), ?_, ((i % W : Nat) : Int), ?_, h5, ?_⟩
    · rw [mem_rangeII]
      exact ⟨h3, h4⟩
    · rw [mem_rangeII]
      exact ⟨h1, h2⟩
    · have hcast : ((i / W : Nat) : Int) * (W : Int) + ((i % W : Nat) : Int)
          = ((i / W * W + i % W : Nat) : Int) := by
        push_cast
        ring
      rw [hcast]
      have hIdx : i / W * W + i % W = i := by
        calc i / W * W + i % W = W * (i / W) + i % W := by ring
          _ = i := Nat.div_add_mod i W
      rw [hIdx]
      omega


theorem occCount_mono (W H : Nat) (g1 g2 : Grid)
    (h : ∀ i, i < W * H → g1 i = true → g2 i = true) :
    occCount W H g1 ≤ occCount W H g2 := by
  unfold occCount
  refine Finset.sum_le_sum (fun i hi => ?_)
  cases hg : g1 i
  · simp
  · have h2 := h i (Finset.mem_range.mp hi) hg
    simp [hg, h2]

theorem clearCircle_occCount_le (W H : Nat) (g : Grid) (x y radius : ℚ) :
    occCount W H (clearCircle W H g x y radius) ≤ occCount W H g := by
  refine occCount_mono W H _ g (fun i hi htrue => ?_)
  rw [clearCircle_lookup W H g x y radius i hi] at htrue
  by_cases hcov : craterCovers W H x y radius i
  · rw [if_pos hcov] at htrue
    cases htrue
  · rw [if_neg hcov] at htrue
    exact htrue

theorem processExplosions_occCount_le (W H : Nat) (es : List Explosion) :
    ∀ g : Grid, occCount W H (processExplosions W H es g) ≤ occCount W H g := by
  induction es with
  | nil =>
    intro g
    exact le_refl _
  | cons e es ih =>
    intro g
    calc occCount W H (processExplosions W H (e :: es) g)
        ≤ occCount W H (clearCircle W H g e.x e.y e.radius) :=
          ih (clearCircle W H g e.x e.y e.radius)
      _ ≤ occCount W H g := clearCircle_occCount_le W H g e.x e.y e.radius

/-- C6 counterexample: the crater test is the squared distance from the
cell's integer coordinate, not from the cell's center.  With an explosion at
`(3, 3)` of radius `1` on a fully occupied 6 × 6 grid, the cell `(4, 3)`
(flat index 22) is cleared even though its center `(4.5, 3.5)` lies at
squared distance `5/2 > 1` from the explosion point. -/
theorem c6_counterexample_cell_center_outside_radius :
    clearCircle 6 6 (fun _ => true) 3 3 1 22 = false ∧
    ¬ (((4 : ℚ) + 1 / 2 - 3) * ((4 : ℚ) + 1 / 2 - 3)
        + ((3 : ℚ) + 1 / 2 - 3) * ((3 : ℚ) + 1 / 2 - 3) ≤ 1 * 1) := by
  constructor
  · have h := clearCircle_lookup 6 6 (fun _ => true) 3 3 1 22 (by norm_num)
    have hcov : craterCovers 6 6 3 3 1 22 := by
      unfold craterCovers craterHit
      norm_num
    rw [h, if_pos hcov]
  · norm_num

/-- C6 amended: `clearCircle` empties exactly the grid cells whose integer
coordinate (column `i % W`, row `i / W`) lies in the clipped bounding box and
within `radius` of the explosion point under the inclusive squared-distance
test; every other cell is unchanged; and the occupied-cell count never
increases, for one crater and for a whole batch of explosions. -/
theorem c6_amended_crater_semantics :
    (∀ (W H : Nat) (g : Grid) (x y radius : ℚ) (i : Nat), i < W * H →
      clearCircle W H g x y radius i
        = if craterCovers W H x y radius i then false else g i) ∧
    (∀ (W H : Nat) (g : Grid) (x y radius : ℚ),
      occCount W H (clearCircle W H g x y radius) ≤ occCount W H g) ∧
    (∀ (W H : Nat) (es : List Explosion) (g : Grid),
      occCount W H (processExplosions W H es g) ≤ occCount W H g) :=
  ⟨clearCircle_lookup, clearCircle_occCount_le,
    fun W H es g => processExplosions_occCount_le W H es g⟩

/-- Witness for C6: the characterisation applied at flat index 22 of the
6 × 6 grid. -/
theorem c6_amended_crater_semantics_witness :
    22 < 6 * 6 ∧
    clearCircle 6 6 (fun _ => true) 3 3 1 22
      = if craterCovers 6 6 3 3 1 22 then false else (fun _ => true) 22 :=
  ⟨by decide, c6_amended_crater_semantics.1 6 6 (fun _ => true) 3 3 1 22 (by decide)⟩

/-!
Ray cast, `checkLineCollision` of `src/utils.ts` (the variant with tank
collision checks, `src/unnamed/part_000`, lines 7-95; the sand-only variant
is the same walk without the tank loop, so the theorems below cover both by
taking an empty roster).  The source receives the whole simulation state and
reads `state.sand` and `state.tanks`; the embedding takes those two fields.
`Math.sqrt` is passed as a rational-valued parameter `sqrtq`.
-/

/-- A tank (`types.ts`): position, turret angle, firing power and health
(rendering-only fields are omitted). -/
structure Tank where
  x : ℚ
  y : ℚ
  angle : ℚ
  power : ℚ
  health : ℚ

/-- The tank scan of one walk step: skip dead tanks; a living tank whose
`sqrt` distance from the cell center is at most `TANK_RADIUS = 10` yields
the collision point on the tank's bounding circle. -/
def tankHit (sqrtq : ℚ → ℚ) (x y : Int) : List Tank → Option (ℚ × ℚ)
  | [] => none
  | t :: ts =>
    if t.health ≤ 0 then tankHit sqrtq x y ts
    else
      if sqrtq (((x : ℚ) + 1 / 2 - t.x) * ((x : ℚ) + 1 / 2 - t.x)
          + ((y : ℚ) + 1 / 2 - t.y) * ((y : ℚ) + 1 / 2 - t.y)) ≤ 10 then
        some
          (t.x + ((x : ℚ) + 1 / 2 - t.x)
            / sqrtq (((x : ℚ) + 1 / 2 - t.x) * ((x : ℚ) + 1 / 2 - t.x)
              + ((y : ℚ) + 1 / 2 - t.y) * ((y : ℚ) + 1 / 2 - t.y)) * 10,
          t.y + ((y : ℚ) + 1 / 2 - t.y)
            / sqrtq (((x : ℚ) + 1 / 2 - t.x) * ((x : ℚ) + 1 / 2 - t.x)
              + ((y : ℚ) + 1 / 2 - t.y) * ((y : ℚ) + 1 / 2 - t.y)) * 10)
      else tankHit sqrtq x y ts

/-- One iteration of the equal-error stepping: `e2 = 2 * err`; if
`e2 > -dy` then `err -= dy; x += sx`; if `e2 < dx` (with the original `e2`)
then `err += dx; y += sy`.  `bX`, `bY`, `bErr` are the next `x`, `y`, `err`. -/
def bX (dy sx x err : Int) : Int :=
  if 2 * err > -dy then x + sx else x

/-- Next `y` of the equal-error step. -/
def bY (dx sy y err : Int) : Int :=
  if 2 * err < dx then y + sy else y

/-- Next `err` of the equal-error step. -/
def bErr (dx dy err : Int) : Int :=
  if 2 * err < dx then (if 2 * err > -dy then err - dy else err) + dx
  else (if 2 * err > -dy then err - dy else err)

/-- The Bresenham walk of `checkLineCollision`: step by the equal-error
rule, break (returning no collision) on leaving the grid, report the first
sand cell's center or the first tank hit.  The loop runs at most
`|dx| + |dy|` iterations (each iteration moves `x` toward `endX` or `y`
toward `endY`, and neither coordinate ever oversteps its target), so the
wrapper's fuel of `dx + dy` makes the fuel bound unreachable. -/
def walkLine (W H : Nat) (sqrtq : ℚ → ℚ) (sand : Grid) (tanks : List Tank)
    (endX endY dx dy sx sy : Int) :
    Nat → Int → Int → Int → Option (ℚ × ℚ)
  | 0, _, _, _ => none
  | fuel + 1, x, y, err =>
    if x = endX ∧ y = endY then none
    else
      if bX dy sx x err < 0 ∨ bX dy sx x err ≥ (W : Int)
          ∨ bY dx sy y err < 0 ∨ bY dx sy y err ≥ (H : Int) then none
      else
        if 0 ≤ bY dx sy y err * (W : Int) + bX dy sx x err
            ∧ bY dx sy y err * (W : Int) + bX dy sx x err < ((W * H : Nat) : Int)
            ∧ sand (bY dx sy y err * (W : Int) + bX dy sx x err).toNat = true then
          some ((bX dy sx x err : ℚ) + 1 / 2, (bY dx sy y err : ℚ) + 1 / 2)
        else
          match tankHit sqrtq (bX dy sx x err) (bY dx sy y err) tanks with
          | some p => some p
          | none =>
            walkLine W H sqrtq sand tanks endX endY dx dy sx sy fuel
              (bX dy sx x err) (bY dx sy y err) (bErr dx dy err)

/-- `checkLineCollision(x0, y0, x1, y1, state)`. -/
def checkLineCollision (W H : Nat) (sqrtq : ℚ → ℚ) (x0 y0 x1 y1 : ℚ)
    (sand : Grid) (tanks : List Tank) : Option (ℚ × ℚ) :=
  if 0 ≤ ⌊y0⌋ * (W : Int) + ⌊x0⌋
      ∧ ⌊y0⌋ * (W : Int) + ⌊x0⌋ < ((W * H : Nat) : Int)
      ∧ sand (⌊y0⌋ * (W : Int) + ⌊x0⌋).toNat = true then
    -- start point already colliding: return it immediately
    some (x0, y0)
  else
    walkLine W H sqrtq sand tanks ⌊x1⌋ ⌊y1⌋ |⌊x1⌋ - ⌊x0⌋| |⌊y1⌋ - ⌊y0⌋|
      (if ⌊x0⌋ < ⌊x1⌋ then 1 else -1) (if ⌊y0⌋ < ⌊y1⌋ then 1 else -1)
      (|⌊x1⌋ - ⌊x0⌋| + |⌊y1⌋ - ⌊y0⌋|).toNat ⌊x0⌋ ⌊y0⌋
      (|⌊x1⌋ - ⌊x0⌋| - |⌊y1⌋ - ⌊y0⌋|)

/-- The cells visited by the walk of `checkLineCollision`, in order: the
rasterized path of the segment (excluding the start cell, stopping at the
grid border). -/
def walkTrace (W H : Nat) (endX endY dx dy sx sy : Int) :
    Nat → Int → Int → Int → List (Int × Int)
  | 0, _, _, _ => []
  | fuel + 1, x, y, err =>
    if x = endX ∧ y = endY then []
    else
      if bX dy sx x err < 0 ∨ bX dy sx x err ≥ (W : Int)
          ∨ bY dx sy y err < 0 ∨ bY dx sy y err ≥ (H : Int) then []
      else
        (bX dy sx x err, bY dx sy y err) ::
          walkTrace W H endX endY dx dy sx sy fuel
            (bX dy sx x err) (bY dx sy y err) (bErr dx dy err)

/-- The rasterized path walked by `checkLineCollision` for a given segment. -/
def rayTrace (W H : Nat) (x0 y0 x1 y1 : ℚ) : List (Int × Int) :=
  walkTrace W H ⌊x1⌋ ⌊y1⌋ |⌊x1⌋ - ⌊x0⌋| |⌊y1⌋ - ⌊y0⌋|
    (if ⌊x0⌋ < ⌊x1⌋ then 1 else -1) (if ⌊y0⌋ < ⌊y1⌋ then 1 else -1)
    (|⌊x1⌋ - ⌊x0⌋| + |⌊y1⌋ - ⌊y0⌋|).toNat ⌊x0⌋ ⌊y0⌋
    (|⌊x1⌋ - ⌊x0⌋| - |⌊y1⌋ - ⌊y0⌋|)

/-- No tank hit at a cell iff no living tank is within the radius test. -/
theorem tankHit_eq_none_iff (sqrtq : ℚ → ℚ) (x y : Int) (ts : List Tank) :
    tankHit sqrtq x y ts = none ↔
      ∀ t ∈ ts, 0 < t.health →
        ¬ sqrtq (((x : ℚ) + 1 / 2 - t.x) * ((x : ℚ) + 1 / 2 - t.x)
          + ((y : ℚ) + 1 / 2 - t.y) * ((y : ℚ) + 1 / 2 - t.y)) ≤ 10 := by
  induction ts with
  | nil => simp [tankHit]
  | cons t ts ih =>
    by_cases hd : t.health ≤ 0
    · rw [show tankHit sqrtq x y (t :: ts) = tankHit sqrtq x y ts from by
        rw [tankHit, if_pos hd]]
      rw [ih]
      constructor
      · intro h a ha
        rcases List.mem_cons.mp ha with rfl | ha2
        · intro hpos
          exact absurd hd (by exact not_le.mpr hpos)
        · exact h a ha2
      · intro h a ha
        exact h a (List.mem_cons_of_mem t ha)
    · by_cases hr : sqrtq (((x : ℚ) + 1 / 2 - t.x) * ((x : ℚ) + 1 / 2 - t.x)
          + ((y : ℚ) + 1 / 2 - t.y) * ((y : ℚ) + 1 / 2 - t.y)) ≤ 10
      · rw [tankHit, if_neg hd, if_pos hr]
        simp only [reduceCtorEq, false_iff, not_forall]
        push_neg
        exact ⟨t, List.mem_cons_self t ts, lt_of_not_le hd, hr⟩
      · rw [show tankHit sqrtq x y (t :: ts) = tankHit sqrtq x y ts from by
          rw [tankHit, if_neg hd, if_neg hr]]
        rw [ih]
        constructor
        · intro h a ha
          rcases List.mem_cons.mp ha with rfl | ha2
          · intro _
            exact hr
          · exact h a ha2
        · intro h a ha
          exact h a (List.mem_cons_of_mem t ha)

theorem int_idx_lt {W H : Nat} {x y : Int} (hx0 : 0 ≤ x) (hxW : x < (W : Int))
    (hy0 : 0 ≤ y) (hyH : y < (H : Int)) :
    0 ≤ y * (W : Int) + x ∧ y * (W : Int) + x < ((W * H : Nat) : Int) := by
  have hW0 : (0 : Int) ≤ (W : Int) := by positivity
  constructor
  · have := mul_nonneg hy0 hW0
    omega
  · have h1 : y * (W : Int) ≤ ((H : Int) - 1) * W :=
      mul_le_mul_of_nonneg_right (by omega) hW0
    have h2 : ((H : Int) - 1) * (W : Int) = (H : Int) * (W : Int) - W := by ring
    have h3 : ((W * H : Nat) : Int) = (H : Int) * (W : Int) := by push_cast; ring
    omega

/-- If every cell of the walk's trace is sand-free and hits no living tank,
the walk finds no collision. -/
theorem walkLine_eq_none (W H : Nat) (sqrtq : ℚ → ℚ) (sand : Grid)
    (tanks : List Tank) (endX endY dx dy sx sy : Int) :
    ∀ (fuel : Nat) (x y err : Int),
      (∀ c ∈ walkTrace W H endX endY dx dy sx sy fuel x y err,
        sand ((c.2 * (W : Int) + c.1).toNat) = false) →
      (∀ c ∈ walkTrace W H endX endY dx dy sx sy fuel x y err,
        tankHit sqrtq c.1 c.2 tanks = none) →
      walkLine W H sqrtq sand tanks endX endY dx dy sx sy fuel x y err = none := by
  intro fuel
  induction fuel with
  | zero =>
    intro x y err _ _
    rfl
  | succ fuel ih =>
    intro x y err hsand htank
    rw [walkTrace] at hsand htank
    rw [walkLine]
    by_cases hend : x = endX ∧ y = endY
    · rw [if_pos hend]
    · rw [if_neg hend] at hsand htank ⊢
      by_cases hoob : bX dy sx x err < 0 ∨ bX dy sx x err ≥ (W : Int)
          ∨ bY dx sy y err < 0 ∨ bY dx sy y err ≥ (H : Int)
      · rw [if_pos hoob]
      · rw [if_neg hoob] at hsand htank ⊢
        have hhead : sand ((bY dx sy y err * (W : Int) + bX dy sx x err).toNat)
            = false :=
          hsand (bX dy sx x err, bY dx sy y err) (List.mem_cons_self _ _)
        have hcond : ¬ (0 ≤ bY dx sy y err * (W : Int) + bX dy sx x err
            ∧ bY dx sy y err * (W : Int) + bX dy sx x err < ((W * H : Nat) : Int)
            ∧ sand (bY dx sy y err * (W : Int) + bX dy sx x err).toNat = true) := by
          intro ⟨_, _, hc⟩
          rw [hhead] at hc
          cases hc
        rw [if_neg hcond]
        have hthead : tankHit sqrtq (bX dy sx x err) (bY dx sy y err) tanks
            = none :=
          htank (bX dy sx x err, bY dx sy y err) (List.mem_cons_self _ _)
        rw [hthead]
        exact ih (bX dy sx x err) (bY dx sy y err) (bErr dx dy err)
          (fun c hc => hsand c (List.mem_cons_of_mem _ hc))
          (fun c hc => htank c (List.mem_cons_of_mem _ hc))

/-- If the walk's trace reaches a sand cell at position `n` and every
earlier cell of the trace is sand-free and hits no living tank, the walk
reports that cell's center. -/
theorem walkLine_first_sand (W H : Nat) (sqrtq : ℚ → ℚ) (sand : Grid)
    (tanks : List Tank) (endX endY dx dy sx sy : Int) :
    ∀ (fuel : Nat) (x y err : Int) (n : Nat) (c : Int × Int),
      (walkTrace W H endX endY dx dy sx sy fuel x y err).get? n = some c →
      sand ((c.2 * (W : Int) + c.1).toNat) = true →
      (∀ m, m < n → ∀ c',
        (walkTrace W H endX endY dx dy sx sy fuel x y err).get? m = some c' →
        sand ((c'.2 * (W : Int) + c'.1).toNat) = false
          ∧ tankHit sqrtq c'.1 c'.2 tanks = none) →
      walkLine W H sqrtq sand tanks endX endY dx dy sx sy fuel x y err
        = some ((c.1 : ℚ) + 1 / 2, (c.2 : ℚ) + 1 / 2) := by
  intro fuel
  induction fuel with
  | zero =>
    intro x y err n c hc _ _
    cases hc
  | succ fuel ih =>
    intro x y err n c hc hcsand hprev
    rw [walkTrace] at hc hprev
    rw [walkLine]
    by_cases hend : x = endX ∧ y = endY
    · rw [if_pos hend] at hc
      cases hc
    · rw [if_neg hend] at hc hprev ⊢
      by_cases hoob : bX dy sx x err < 0 ∨ bX dy sx x err ≥ (W : Int)
          ∨ bY dx sy y err < 0 ∨ bY dx sy y err ≥ (H : Int)
      · rw [if_pos hoob] at hc
        cases hc
      · rw [if_neg hoob] at hc hprev ⊢
        push_neg at hoob
        obtain ⟨hx0, hxW, hy0, hyH⟩ := hoob
        cases n with
        | zero =>
          rw [List.get?_cons_zero] at hc
          injection hc with hc
          subst hc
          have hidx := int_idx_lt hx0 hxW hy0 hyH
          rw [if_pos ⟨hidx.1, hidx.2, hcsand⟩]
        | succ m =>
          have hph := hprev 0 (Nat.succ_pos m) (bX dy sx x err, bY dx sy y err)
            List.get?_cons_zero
          have hcond : ¬ (0 ≤ bY dx sy y err * (W : Int) + bX dy sx x err
              ∧ bY dx sy y err * (W : Int) + bX dy sx x err < ((W * H : Nat) : Int)
              ∧ sand (bY dx sy y err * (W : Int) + bX dy sx x err).toNat = true) := by
            intro ⟨_, _, hcc⟩
            rw [hph.1] at hcc
            cases hcc
          rw [if_neg hcond, hph.2]
          rw [List.get?_cons_succ] at hc
          refine ih (bX dy sx x err) (bY dx sy y err) (bErr dx dy err) m c hc
            hcsand (fun k hk c' hk2 => ?_)
          exact hprev (k + 1) (by omega) c' (by rw [List.get?_cons_succ]; exact hk2)

/-- C5: ray-cast correctness of `checkLineCollision`.  (1) If the
rounded-down start point lies in occupied terrain (inside the grid), the
exact start point is returned without walking.  (2) If every rasterized cell
along the segment is sand-free and no living tank is within the proximity
radius of any of them (squared distance above `100 = 10²`, with `sqrtq`
compatible with that test), no collision is reported.  (3) If the rasterized
path first meets an occupied cell at position `n`, all earlier cells being
sand-free and tank-free, that cell's center (cell coordinates plus one half)
is returned. -/
theorem c5_ray_cast_correctness :
    (∀ (W H : Nat) (sqrtq : ℚ → ℚ) (x0 y0 x1 y1 : ℚ) (sand : Grid)
      (tanks : List Tank),
      0 ≤ ⌊x0⌋ → ⌊x0⌋ < (W : Int) → 0 ≤ ⌊y0⌋ → ⌊y0⌋ < (H : Int) →
      sand ((⌊y0⌋ * (W : Int) + ⌊x0⌋).toNat) = true →
      checkLineCollision W H sqrtq x0 y0 x1 y1 sand tanks = some (x0, y0)) ∧
    (∀ (W H : Nat) (sqrtq : ℚ → ℚ) (x0 y0 x1 y1 : ℚ) (sand : Grid)
      (tanks : List Tank),
      (∀ q, sqrtq q ≤ 10 ↔ q ≤ 100) →
      ¬ (0 ≤ ⌊y0⌋ * (W : Int) + ⌊x0⌋
          ∧ ⌊y0⌋ * (W : Int) + ⌊x0⌋ < ((W * H : Nat) : Int)
          ∧ sand (⌊y0⌋ * (W : Int) + ⌊x0⌋).toNat = true) →
      (∀ c ∈ rayTrace W H x0 y0 x1 y1,
        sand ((c.2 * (W : Int) + c.1).toNat) = false) →
      (∀ c ∈ rayTrace W H x0 y0 x1 y1, ∀ t ∈ tanks, 0 < t.health →
        ¬ (((c.1 : ℚ) + 1 / 2 - t.x) * ((c.1 : ℚ) + 1 / 2 - t.x)
          + ((c.2 : ℚ) + 1 / 2 - t.y) * ((c.2 : ℚ) + 1 / 2 - t.y) ≤ 100)) →
      checkLineCollision W H sqrtq x0 y0 x1 y1 sand tanks = none) ∧
    (∀ (W H : Nat) (sqrtq : ℚ → ℚ) (x0 y0 x1 y1 : ℚ) (sand : Grid)
      (tanks : List Tank) (n : Nat) (c : Int × Int),
      (∀ q, sqrtq q ≤ 10 ↔ q ≤ 100) →
      ¬ (0 ≤ ⌊y0⌋ * (W : Int) + ⌊x0⌋
          ∧ ⌊y0⌋ * (W : Int) + ⌊x0⌋ < ((W * H : Nat) : Int)
          ∧ sand (⌊y0⌋ * (W : Int) + ⌊x0⌋).toNat = true) →
      (rayTrace W H x0 y0 x1 y1).get? n = some c →
      sand ((c.2 * (W : Int) + c.1).toNat) = true →
      (∀ m, m < n → ∀ c', (rayTrace W H x0 y0 x1 y1).get? m = some c' →
        sand ((c'.2 * (W : Int) + c'.1).toNat) = false
          ∧ (∀ t ∈ tanks, 0 < t.health →
            ¬ (((c'.1 : ℚ) + 1 / 2 - t.x) * ((c'.1 : ℚ) + 1 / 2 - t.x)
              + ((c'.2 : ℚ) + 1 / 2 - t.y) * ((c'.2 : ℚ) + 1 / 2 - t.y) ≤ 100))) →
      checkLineCollision W H sqrtq x0 y0 x1 y1 sand tanks
        = some ((c.1 : ℚ) + 1 / 2, (c.2 : ℚ) + 1 / 2)) := by
  refine ⟨?_, ?_, ?_⟩
  · intro W H sqrtq x0 y0 x1 y1 sand tanks hx0 hxW hy0 hyH hocc
    have hidx := int_idx_lt hx0 hxW hy0 hyH
    rw [checkLineCollision, if_pos ⟨hidx.1, hidx.2, hocc⟩]
  · intro W H sqrtq x0 y0 x1 y1 sand tanks hs hstart hsand htank
    rw [checkLineCollision, if_neg hstart]
    rw [rayTrace] at hsand htank
    refine walkLine_eq_none W H sqrtq sand tanks _ _ _ _ _ _ _ _ _ _ hsand
      (fun c hc => (tankHit_eq_none_iff sqrtq c.1 c.2 tanks).mpr ?_)
    intro t ht hh hle
    exact htank c hc t ht hh ((hs _).mp hle)
  · intro W H sqrtq x0 y0 x1 y1 sand tanks n c hs hstart hget hcsand hprev
    rw [checkLineCollision, if_neg hstart]
    rw [rayTrace] at hget hprev
    refine walkLine_first_sand W H sqrtq sand tanks _ _ _ _ _ _ _ _ _ _ n c hget
      hcsand (fun m hm c' hm2 => ?_)
    refine ⟨(hprev m hm c' hm2).1,
      (tankHit_eq_none_iff sqrtq c'.1 c'.2 tanks).mpr ?_⟩
    intro t ht hh hle
    exact (hprev m hm c' hm2).2 t ht hh ((hs _).mp hle)

/-- A square-root stand-in compatible with the `≤ 10` radius test, used by
the ray-cast witness. -/
def sqrtTest : ℚ → ℚ := fun q => if q ≤ 100 then 0 else 11

theorem sqrtTest_spec : ∀ q : ℚ, sqrtTest q ≤ 10 ↔ q ≤ 100 := by
  intro q
  unfold sqrtTest
  split
  · rename_i h
    exact ⟨fun _ => h, fun _ => by norm_num⟩
  · rename_i h
    exact ⟨fun hc => by norm_num at hc, fun hq => absurd hq h⟩

/-- Witness for C5: the three ray-cast cases on concrete 8 × 8 grids: a
fully occupied grid with the start inside terrain, an empty grid with an
empty corridor, and a grid with one occupied cell at `(1, 1)` on the
diagonal from `(0, 0)` to `(2, 2)`. -/
theorem c5_ray_cast_correctness_witness :
    (0 : Int) ≤ ⌊(0 : ℚ)⌋ ∧ ⌊(0 : ℚ)⌋ < (8 : Int) ∧
    checkLineCollision 8 8 sqrtTest 0 0 5 5 (fun _ => true) []
      = some ((0 : ℚ), (0 : ℚ)) ∧
    checkLineCollision 8 8 sqrtTest 0 0 5 5 (fun _ => false) [] = none ∧
    (rayTrace 8 8 0 0 2 2).get? 0 = some (1, 1) ∧
    checkLineCollision 8 8 sqrtTest 0 0 2 2 (fun i => decide (i = 9)) []
      = some (((1 : Int) : ℚ) + 1 / 2, ((1 : Int) : ℚ) + 1 / 2) := by
  have htrace : (rayTrace 8 8 0 0 2 2).get? 0 = some (1, 1) := by
    norm_num [rayTrace, walkTrace, bX, bY, bErr]
  refine ⟨by simp, by simp, ?_, ?_, htrace, ?_⟩
  · exact c5_ray_cast_correctness.1 8 8 sqrtTest 0 0 5 5 (fun _ => true) []
      (by simp) (by simp) (by simp) (by simp) rfl
  · exact c5_ray_cast_correctness.2.1 8 8 sqrtTest 0 0 5 5 (fun _ => false) []
      sqrtTest_spec (by simp) (fun c _ => rfl) (by simp)
  · exact c5_ray_cast_correctness.2.2 8 8 sqrtTest 0 0 2 2
      (fun i => decide (i = 9)) [] 0 (1, 1) sqrtTest_spec (by simp)
      htrace (by decide) (fun m hm => absurd hm (Nat.not_lt_zero m))

/-!
Simulation state and the phase-driven update (`src/init.ts`, turn-based
variant, lines 666-1042, with the subsystem updates of
`src/systems/sand.ts` and `src/systems/tanks.ts`).  The keyboard globals
`keys` / `keyPressed.space` are passed as an input record, and the update
returns the possibly reset `keyPressed.space` flag and the advanced random
counter along with the new state.
-/

/-- Simulation phases (`types.ts`). -/
inductive Phase
  | missiles
  | explosions
  | sand
  | tanks
  | control
  | gameover
  | idle
deriving DecidableEq

/-- A projectile (`types.ts`). -/
structure Missile where
  x : ℚ
  y : ℚ
  vx : ℚ
  vy : ℚ
  explosionRadius : ℚ

/-- The simulation state (`types.ts`). -/
structure SimState where
  phase : Phase
  missiles : List Missile
  explosions : List Explosion
  explosionDuration : Int
  wind : ℚ
  sand : Grid
  tanks : List Tank
  currentTankIndex : Option Nat

/-- Keyboard state (`keys` and the edge-triggered `keyPressed.space`). -/
structure Keys where
  left : Bool
  right : Bool
  up : Bool
  down : Bool
  spacePressed : Bool

/-- The loop-body test of `findNextAliveTank`:
`tanks[(startIndex + i) % tanks.length].health > 0`.  (JS `%` is the
truncated remainder, but every caller passes `startIndex >= -1` and the
loop uses `i >= 1`, so the dividend is nonnegative and the Euclidean
remainder used here agrees with it.) -/
def aliveAt (tanks : List Tank) (startIndex : Int) (i : Nat) : Bool :=
  match tanks.get? (((startIndex + i) % (tanks.length : Int)).toNat) with
  | some t => decide (0 < t.health)
  | none => false

/-- `findNextAliveTank`: first index strictly after `startIndex` (with
wraparound) whose tank has positive health; `none` when no tank is alive. -/
def findNextAliveTank (tanks : List Tank) (startIndex : Int) : Option Nat :=
  if (tanks.filter (fun t => 0 < t.health)).length = 0 then none
  else
    match (List.range' 1 tanks.length).find? (aliveAt tanks startIndex) with
    | some i => some (((startIndex + i) % (tanks.length : Int)).toNat)
    | none => none

/-- `advanceToNextTankTurn`: no-op on an empty roster; otherwise advance the
cursor to the next alive tank, starting from `-1` when no cursor is set. -/
def advanceToNextTankTurn (s : SimState) : SimState :=
  if s.tanks.length = 0 then s
  else
    match s.currentTankIndex with
    | none => { s with currentTankIndex := findNextAliveTank s.tanks (-1) }
    | some c => { s with currentTankIndex := findNextAliveTank s.tanks c }

/-- `checkGameOverCondition`: outside `gameover`, if at most one tank is
alive, enter `gameover` and set the cursor to the winner's index (the first
alive index) or clear it on a stalemate. -/
def checkGameOverCondition (s : SimState) : SimState :=
  if s.phase = Phase.gameover then s
  else
    if (s.tanks.filter (fun t => 0 < t.health)).length ≤ 1 then
      { s with
        phase := Phase.gameover,
        currentTankIndex :=
          if (s.tanks.filter (fun t => 0 < t.health)).length = 1 then
            some (s.tanks.findIdx (fun t => decide (0 < t.health)))
          else none }
    else s

/-- `fireMissileFromTank` (`systems/sand.ts`, lines 309-343): an invalid
index is silently ignored; otherwise spawn one missile at the turret tip
(`TURRET_LENGTH + 2 = 17`), speed `10 * power / 100`, and a random blast
radius `random * 60 + 10`. -/
def fireMissileFromTank (cosf sinf : ℚ → ℚ) (σ : Nat → ℚ) (s : SimState)
    (k : Nat) (tankIndex : Int) : SimState × Nat :=
  if tankIndex ≥ (s.tanks.length : Int) ∨ tankIndex < 0 then
    (s, k) -- invalid tank index
  else
    match s.tanks.get? tankIndex.toNat with
    | none => (s, k) -- unreachable: the guard ensures the index is in range
    | some tank =>
      ({ s with missiles := s.missiles ++
          [{ x := tank.x + cosf tank.angle * (15 + 2),
             y := tank.y + sinf tank.angle * (15 + 2),
             vx := cosf tank.angle * (10 * tank.power / 100),
             vy := sinf tank.angle * (10 * tank.power / 100),
             explosionRadius := σ k * 60 + 10 }] }, k + 1)

/-- The spawn-position loop of `generateRandomMissiles`: up to 50 attempts
to find a sand-free cell, keeping the last attempted position otherwise. -/
def findSpawnPosition (W H : Nat) (sand : Grid) (σ : Nat → ℚ) :
    Nat → ℚ → ℚ → Nat → ℚ × ℚ × Nat
  | 0, x, y, k => (x, y, k)
  | fuel + 1, _, _, k =>
    let x1 := σ k * (W : ℚ)
    let y1 := σ (k + 1) * (H : ℚ)
    if 0 ≤ ⌊y1⌋ * (W : Int) + ⌊x1⌋
        ∧ ⌊y1⌋ * (W : Int) + ⌊x1⌋ < ((W * H : Nat) : Int)
        ∧ sand (⌊y1⌋ * (W : Int) + ⌊x1⌋).toNat = false then
      (x1, y1, k + 2)
    else findSpawnPosition W H sand σ fuel x1 y1 (k + 2)

/-- One missile of `generateRandomMissiles`: a discarded initial position
draw, the spawn-position loop, speed and angle draws, the minimum-velocity
correction and the blast-radius draw. -/
def genOneMissile (W H : Nat) (sand : Grid) (cosf sinf : ℚ → ℚ) (piq : ℚ)
    (σ : Nat → ℚ) (k : Nat) : Missile × Nat :=
  let p := findSpawnPosition W H sand σ 50 (σ k * (W : ℚ)) 10 (k + 1)
  let speed := σ p.2.2 * 3 + 2
  let angle := σ (p.2.2 + 1) * piq * 2
  let vx := cosf angle * speed
  let vy := sinf angle * speed
  ({ x := p.1, y := p.2.1,
     vx := if |vx| < 1 ∧ |vy| < 1 then vx * (1 / max |vx| |vy|) else vx,
     vy := if |vx| < 1 ∧ |vy| < 1 then vy * (1 / max |vx| |vy|) else vy,
     explosionRadius := σ (p.2.2 + 2) * 60 + 10 }, p.2.2 + 3)

/-- `generateRandomMissiles` (`systems/sand.ts`, lines 238-302): clear the
missile list, draw a fresh wind `(random - 0.5) * 0.2`, then spawn
`floor(random * 3) + 1` missiles. -/
def generateRandomMissiles (W H : Nat) (cosf sinf : ℚ → ℚ) (piq : ℚ)
    (σ : Nat → ℚ) (s : SimState) (k : Nat) : SimState × Nat :=
  let wind := (σ k - 1 / 2) * (1 / 5)
  let missileCount := (⌊σ (k + 1) * 3⌋ + 1).toNat
  let p := (List.range missileCount).foldl
    (fun (acc : List Missile × Nat) _ =>
      let m := genOneMissile W H s.sand cosf sinf piq σ acc.2
      (acc.1 ++ [m.1], m.2))
    ([], k + 2)
  ({ s with missiles := p.1, wind := wind }, p.2)

/-- The outcome of one projectile's physics tick. -/
inductive MissileOutcome
  | gone
  | flying (m : Missile)
  | boom (e : Explosion)

/-- One projectile tick of `updateMissiles`: gravity `0.2`, wind drift,
position integration, out-of-bounds removal, then the ray cast from the
previous to the new position. -/
def missileStep (W H : Nat) (sqrtq : ℚ → ℚ) (sand : Grid) (tanks : List Tank)
    (wind : ℚ) (m : Missile) : MissileOutcome :=
  let vy := m.vy + 1 / 5
  let vx := m.vx + wind
  let x := m.x + vx
  let y := m.y + vy
  if x < 0 ∨ x ≥ (W : ℚ) ∨ y ≥ (H : ℚ) then MissileOutcome.gone
  else
    match checkLineCollision W H sqrtq m.x m.y x y sand tanks with
    | some p => MissileOutcome.boom { x := p.1, y := p.2, radius := m.explosionRadius }
    | none => MissileOutcome.flying { m with x := x, y := y, vx := vx, vy := vy }

/-- The backwards splice loop of `updateMissiles`: indices are processed
from the last to the first, so the head of the list is processed last;
surviving missiles keep their order and explosions are pushed in processing
(reverse) order. -/
def updateMissilesAux (W H : Nat) (sqrtq : ℚ → ℚ) (sand : Grid)
    (tanks : List Tank) (wind : ℚ) :
    List Missile → List Missile × List Explosion × Bool
  | [] => ([], [], false)
  | m :: rest =>
    let r := updateMissilesAux W H sqrtq sand tanks wind rest
    match missileStep W H sqrtq sand tanks wind m with
    | MissileOutcome.gone => (r.1, r.2.1, r.2.2)
    | MissileOutcome.flying m1 => (m1 :: r.1, r.2.1, r.2.2)
    | MissileOutcome.boom e => (r.1, r.2.1 ++ [e], true)

/-- `updateMissiles` (`systems/sand.ts`, lines 348-403): advance every
projectile, replace the explosion batch, report whether any detonated. -/
def updateMissiles (W H : Nat) (sqrtq : ℚ → ℚ) (s : SimState) :
    SimState × Bool :=
  let r := updateMissilesAux W H sqrtq s.sand s.tanks s.wind s.missiles
  ({ s with missiles := r.1, explosions := r.2.1 }, r.2.2)

/-- One tank's physics tick (`updateTanks` of `systems/tanks.ts`): if the
cell under the tank's center is sand-free it falls by `TANK_GRAVITY = 0.8`,
otherwise its bottom is snapped to the highest sand cell found under its
footprint (scanning each column downward from the tank's bottom edge); in
both cases the tank is clamped to the floor. -/
def tankPhysicsStep (W H : Nat) (sand : Grid) (t : Tank) : Tank × Bool :=
  let tankBottom : Int := ⌊t.y + 10⌋
  if 0 ≤ ⌊t.x⌋ ∧ ⌊t.x⌋ < (W : Int) ∧ 0 ≤ tankBottom ∧ tankBottom < (H : Int)
      ∧ sand ((tankBottom * (W : Int) + ⌊t.x⌋).toNat) = true then
    let highest := (rangeII ⌊t.x - 10⌋ ⌊t.x + 10⌋).foldl
      (fun (h : Int) x1 =>
        if 0 ≤ x1 ∧ x1 < (W : Int) then
          match ((rangeII 0 tankBottom).reverse).find?
              (fun y1 => gridRead W H sand (y1 * (W : Int) + x1)) with
          | some y1 => min h y1
          | none => h
        else h)
      (H : Int)
    let t1 := if highest < (H : Int) then { t with y := (highest : ℚ) - 10 } else t
    (if t1.y + 10 > (H : ℚ) then { t1 with y := (H : ℚ) - 10 } else t1, true)
  else
    let t1 : Tank := { t with y := t.y + 4 / 5 }
    (if t1.y + 10 > (H : ℚ) then { t1 with y := (H : ℚ) - 10 } else t1, false)

/-- `updateTanks`: every tank steps independently; the phase flag is true
iff every tank was resting on sand this tick. -/
def updateTanks (W H : Nat) (sand : Grid) (tanks : List Tank) :
    List Tank × Bool :=
  (tanks.map (fun t => (tankPhysicsStep W H sand t).1),
    tanks.all (fun t => (tankPhysicsStep W H sand t).2))

/-- `Explosions.update` (`systems/hud.ts` explosion system): carve the
craters exactly once, on the first frame of the `explosions` phase. -/
def explosionsUpdate (W H : Nat) (s : SimState) : SimState :=
  if s.explosionDuration = 30 then
    { s with sand := processExplosions W H s.explosions s.sand }
  else s

/-- `updateTankControl`: aim and power input for the active tank
(`ANGLE_SPEED = 0.03`, `POWER_SPEED = 2`, power clamped to `[10, 100]`,
angle clamped to `[π, 2π]`), and the edge-triggered fire command. -/
def updateTankControl (cosf sinf : ℚ → ℚ) (piq : ℚ) (σ : Nat → ℚ)
    (keys : Keys) (s : SimState) (k : Nat) : SimState × Bool × Nat :=
  match s.currentTankIndex with
  | none => (s, keys.spacePressed, k)
  | some i =>
    match s.tanks.get? i with
    | none => (s, keys.spacePressed, k)
    | some t =>
      let a1 := if keys.left then t.angle - 3 / 100 else t.angle
      let a2 := if keys.right then a1 + 3 / 100 else a1
      let p1 := if keys.up then min 100 (t.power + 2) else t.power
      let p2 := if keys.down then max 10 (p1 - 2) else p1
      let s1 := { s with
        tanks := s.tanks.set i
          { t with angle := max piq (min (2 * piq) a2), power := p2 } }
      if keys.spacePressed then
        let r := fireMissileFromTank cosf sinf σ s1 k (i : Int)
        ({ r.1 with phase := Phase.missiles }, false, r.2)
      else (s1, keys.spacePressed, k)

/-- The dead-cursor branch of the `tanks` phase: advance the cursor to the
next alive tank (searching from `-1` when unset) and enter `control` only if
one was found. -/
def tanksDeadBranch (s1 : SimState) (sp : Bool) (k : Nat) :
    SimState × Bool × Nat :=
  match findNextAliveTank s1.tanks
      (match s1.currentTankIndex with
       | some c => (c : Int)
       | none => -1) with
  | some j => ({ s1 with currentTankIndex := some j, phase := Phase.control }, sp, k)
  | none => ({ s1 with currentTankIndex := none }, sp, k)

/-- The phase switch of `updateSimulation` (`src/init.ts`, turn-based
variant, lines 771-858), before the game-over check. -/
def phaseStep (W H : Nat) (cosf sinf sqrtq : ℚ → ℚ) (piq : ℚ) (σ : Nat → ℚ)
    (keys : Keys) (s : SimState) (k : Nat) : SimState × Bool × Nat :=
  match s.phase with
  | Phase.missiles =>
    let r := updateMissiles W H sqrtq s
    if r.2 then
      ({ r.1 with phase := Phase.explosions, explosionDuration := 30 },
        keys.spacePressed, k)
    else if r.1.missiles.length = 0 then
      ({ advanceToNextTankTurn r.1 with phase := Phase.sand },
        keys.spacePressed, k)
    else (r.1, keys.spacePressed, k)
  | Phase.explosions =>
    let s1 := explosionsUpdate W H s
    let s2 := { s1 with explosionDuration := s1.explosionDuration - 1 }
    if s2.explosionDuration ≤ 0 then
      ({ advanceToNextTankTurn s2 with phase := Phase.sand, explosions := [] },
        keys.spacePressed, k)
    else (s2, keys.spacePressed, k)
  | Phase.sand =>
    let r := updateSandIP W H s.sand
    let s1 := { s with sand := r.1 }
    if r.2 = false then
      if s1.missiles.length = 0 then
        ({ s1 with phase := Phase.idle }, keys.spacePressed, k)
      else ({ s1 with phase := Phase.missiles }, keys.spacePressed, k)
    else (s1, keys.spacePressed, k)
  | Phase.idle => ({ s with phase := Phase.tanks }, keys.spacePressed, k)
  | Phase.tanks =>
    let r := updateTanks W H s.sand s.tanks
    let s1 := { s with tanks := r.1 }
    if r.2 then
      match s1.currentTankIndex with
      | some i =>
        match s1.tanks.get? i with
        | some t =>
          if 0 < t.health then
            ({ s1 with phase := Phase.control }, keys.spacePressed, k)
          else tanksDeadBranch s1 keys.spacePressed k
        | none => tanksDeadBranch s1 keys.spacePressed k
      | none => tanksDeadBranch s1 keys.spacePressed k
    else (s1, keys.spacePressed, k)
  | Phase.control => updateTankControl cosf sinf piq σ keys s k
  | Phase.gameover => (s, keys.spacePressed, k)

/-- `updateSimulation`: one phase step, then the game-over check. -/
def updateSimulation (W H : Nat) (cosf sinf sqrtq : ℚ → ℚ) (piq : ℚ)
    (σ : Nat → ℚ) (keys : Keys) (s : SimState) (k : Nat) :
    SimState × Bool × Nat :=
  let r := phaseStep W H cosf sinf sqrtq piq σ keys s k
  (checkGameOverCondition r.1, r.2.1, r.2.2)

/-!
Helper definitions and lemmas about the turn cursor, the alive count and
the preservation of tank healths across one simulation tick.
-/

/-- The search start index used by `advanceToNextTankTurn`:
the current cursor, or `-1` when no cursor is set. -/
def cursorStart : Option Nat → Int
  | some c => (c : Int)
  | none => -1

/-- Number of alive tanks (`tanks.filter(t => t.health > 0).length`). -/
def aliveLen (l : List Tank) : Nat :=
  (l.filter (fun t => 0 < t.health)).length

/-- The list of tank healths, in roster order. -/
def healthsOf (l : List Tank) : List ℚ :=
  l.map (fun t => t.health)

theorem aliveLen_eq_countP (l : List Tank) :
    aliveLen l = (healthsOf l).countP (fun q => decide (0 < q)) := by
  rw [aliveLen, healthsOf, List.countP_map, ← List.countP_eq_length_filter]
  rfl

theorem aliveLen_congr {l1 l2 : List Tank}
    (h : healthsOf l1 = healthsOf l2) : aliveLen l1 = aliveLen l2 := by
  rw [aliveLen_eq_countP, aliveLen_eq_countP, h]

theorem aliveLen_eq_zero {l : List Tank} :
    aliveLen l = 0 ↔ ∀ t ∈ l, ¬ 0 < t.health := by
  rw [aliveLen, List.length_eq_zero, List.filter_eq_nil_iff]
  constructor
  · intro h t ht hpos
    exact h t ht (by simpa using hpos)
  · intro h t ht
    simpa using h t ht

theorem healthsOf_get? {l1 l2 : List Tank} (h : healthsOf l1 = healthsOf l2)
    {j : Nat} {t1 : Tank} (hg : l1.get? j = some t1) :
    ∃ t2, l2.get? j = some t2 ∧ t2.health = t1.health := by
  have h1 : (healthsOf l1).get? j = some t1.health := by
    rw [healthsOf, List.get?_map, hg]; rfl
  rw [h, healthsOf, List.get?_map] at h1
  rcases Option.map_eq_some'.1 h1 with ⟨t2, hget, hh⟩
  exact ⟨t2, hget, hh⟩

theorem healthsOf_set {l : List Tank} :
    ∀ {i : Nat} {t t1 : Tank}, l.get? i = some t → t1.health = t.health →
      healthsOf (l.set i t1) = healthsOf l := by
  induction l with
  | nil => intro i t t1 hg; simp at hg
  | cons a l ih =>
    intro i t t1 hg hh
    cases i with
    | zero =>
      simp only [List.get?] at hg
      cases hg
      simp [healthsOf, hh]
    | succ i =>
      simp only [List.get?] at hg
      have h2 := ih hg hh
      simp only [healthsOf, List.map, List.set] at h2 ⊢
      rw [h2]

/-- First-match characterisation of `find?` on an interval of naturals. -/
theorem find?_range'_spec (p : Nat → Bool) :
    ∀ (n s i : Nat), (List.range' s n).find? p = some i →
      p i = true ∧ s ≤ i ∧ i < s + n ∧ ∀ j, s ≤ j → j < i → p j = false := by
  intro n
  induction n with
  | zero => intro s i h; simp [List.range'] at h
  | succ n ih =>
    intro s i h
    have hr : List.range' s (n + 1) = s :: List.range' (s + 1) n := by
      simp [List.range'_succ]
    rw [hr] at h
    by_cases hp : p s
    · rw [List.find?_cons_of_pos _ hp] at h
      cases h
      exact ⟨hp, le_rfl, by omega, fun j h1 h2 => absurd h1 (by omega)⟩
    · rw [List.find?_cons_of_neg _ hp] at h
      obtain ⟨h1, h2, h3, h4⟩ := ih (s + 1) i h
      refine ⟨h1, by omega, by omega, fun j hj1 hj2 => ?_⟩
      by_cases hj : j = s
      · subst hj; simpa using hp
      · exact h4 j (by omega) hj2

theorem findNextAliveTank_none (tanks : List Tank) (st : Int)
    (h : ∀ t ∈ tanks, ¬ 0 < t.health) : findNextAliveTank tanks st = none := by
  rw [findNextAliveTank, if_pos]
  rw [List.length_eq_zero, List.filter_eq_nil_iff]
  intro t ht
  simpa using h t ht

theorem findNextAliveTank_some (tanks : List Tank) (st : Int) (j : Nat)
    (h : findNextAliveTank tanks st = some j) :
    (∃ t, tanks.get? j = some t ∧ 0 < t.health)
    ∧ ∃ i : Nat, 1 ≤ i ∧ i ≤ tanks.length
        ∧ (((st + i) % (tanks.length : Int)).toNat = j
        ∧ ∀ i1 : Nat, 1 ≤ i1 → i1 < i → ∀ t1,
            tanks.get? (((st + i1) % (tanks.length : Int)).toNat) = some t1 →
              ¬ 0 < t1.health) := by
  rw [findNextAliveTank] at h
  by_cases h0 : (tanks.filter (fun t => 0 < t.health)).length = 0
  · rw [if_pos h0] at h; cases h
  rw [if_neg h0] at h
  rcases hf : (List.range' 1 tanks.length).find? (aliveAt tanks st) with _ | i
  · rw [hf] at h; cases h
  rw [hf] at h
  obtain ⟨hp, h1i, h2i, hfirst⟩ := find?_range'_spec (aliveAt tanks st) _ 1 i hf
  cases h
  constructor
  · rcases hg : tanks.get? (((st + i) % (tanks.length : Int)).toNat) with _ | t
    · rw [aliveAt, hg] at hp; cases hp
    · rw [aliveAt, hg] at hp
      exact ⟨t, rfl, of_decide_eq_true hp⟩
  · refine ⟨i, h1i, by omega, rfl, fun i1 hi1 hi2 t1 hg1 => ?_⟩
    have hfalse : aliveAt tanks st i1 = false := hfirst i1 hi1 hi2
    rw [aliveAt, hg1] at hfalse
    exact of_decide_eq_false hfalse

theorem findNextAliveTank_isSome (tanks : List Tank) (st : Int)
    (h : ∃ t ∈ tanks, 0 < t.health) :
    ∃ j, findNextAliveTank tanks st = some j := by
  rcases h with ⟨t, ht, hpos⟩
  have hlen : 0 < tanks.length := List.length_pos.2 (by rintro rfl; simp at ht)
  have hfil : (tanks.filter (fun t => 0 < t.health)).length ≠ 0 := by
    rw [Ne, List.length_eq_zero, List.filter_eq_nil_iff]
    push_neg
    exact ⟨t, ht, by simpa using hpos⟩
  rcases List.mem_iff_get?.1 ht with ⟨a, hga⟩
  have halen : a < tanks.length := by
    by_contra hcon
    rw [List.get?_eq_none.2 (by omega)] at hga
    cases hga
  -- the offset that reaches index a from st after one full wrap at most
  have hL : ((tanks.length : Int)) ≠ 0 := by
    simpa using Nat.pos_iff_ne_zero.1 hlen
  have hLpos : (0 : Int) < (tanks.length : Int) := by exact_mod_cast hlen
  set d : Int := (a : Int) - st - 1 with hd
  have hnn : 0 ≤ d % (tanks.length : Int) := Int.emod_nonneg d hL
  have hlt : d % (tanks.length : Int) < (tanks.length : Int) :=
    Int.emod_lt_of_pos d hLpos
  set i : Nat := (d % (tanks.length : Int)).toNat + 1 with hi
  have hicast : ((i : Nat) : Int) = d % (tanks.length : Int) + 1 := by
    rw [hi]
    push_cast
    rw [Int.toNat_of_nonneg hnn]
  have hkey : (((st + i) % (tanks.length : Int)).toNat) = a := by
    have h1 : st + (i : Int)
        = (a : Int) + (tanks.length : Int) * (- (d / (tanks.length : Int))) := by
      rw [hicast]
      have h3 : d % (tanks.length : Int)
          = d - (tanks.length : Int) * (d / (tanks.length : Int)) := Int.emod_def d _
      rw [h3, hd]
      ring
    rw [h1, Int.add_mul_emod_self_left,
      Int.emod_eq_of_lt (by exact_mod_cast Nat.zero_le a) (by exact_mod_cast halen)]
    exact Int.toNat_natCast a
  have hmem : i ∈ List.range' 1 tanks.length := by
    rw [List.mem_range'_1]
    omega
  have hpi : aliveAt tanks st i = true := by
    rw [aliveAt, hkey, hga]
    exact decide_eq_true hpos
  have hsome : ((List.range' 1 tanks.length).find? (aliveAt tanks st)).isSome := by
    rw [List.find?_isSome]
    exact ⟨i, hmem, hpi⟩
  rcases hfind : (List.range' 1 tanks.length).find? (aliveAt tanks st) with _ | i0
  · rw [hfind] at hsome; cases hsome
  refine ⟨(((st + i0) % (tanks.length : Int)).toNat), ?_⟩
  rw [findNextAliveTank, if_neg hfil, hfind]

theorem advance_of_empty (s : SimState) (h : s.tanks = []) :
    advanceToNextTankTurn s = s := by
  rw [advanceToNextTankTurn, if_pos (by simp [h])]

theorem advance_eq (s : SimState) (hne : s.tanks ≠ []) :
    advanceToNextTankTurn s =
      { s with currentTankIndex :=
          findNextAliveTank s.tanks (cursorStart s.currentTankIndex) } := by
  rw [advanceToNextTankTurn, if_neg (by simpa [List.length_eq_zero] using hne)]
  cases s.currentTankIndex <;> rfl

theorem advance_proj (s : SimState) :
    (advanceToNextTankTurn s).tanks = s.tanks
    ∧ (advanceToNextTankTurn s).phase = s.phase
    ∧ (advanceToNextTankTurn s).wind = s.wind
    ∧ (advanceToNextTankTurn s).missiles = s.missiles := by
  rw [advanceToNextTankTurn]
  split
  · exact ⟨rfl, rfl, rfl, rfl⟩
  · cases s.currentTankIndex <;> exact ⟨rfl, rfl, rfl, rfl⟩

theorem checkGameOver_of_gameover (s : SimState) (h : s.phase = Phase.gameover) :
    checkGameOverCondition s = s := by
  rw [checkGameOverCondition, if_pos h]

theorem checkGameOver_wind (s : SimState) :
    (checkGameOverCondition s).wind = s.wind := by
  rw [checkGameOverCondition]
  split
  · rfl
  · split <;> rfl

theorem findIdx_alive (l : List Tank) (h : ∃ t ∈ l, 0 < t.health) :
    ∃ t, l.get? (l.findIdx (fun t => decide (0 < t.health))) = some t
      ∧ 0 < t.health := by
  induction l with
  | nil => simp at h
  | cons a l ih =>
    by_cases ha : 0 < a.health
    · refine ⟨a, ?_, ha⟩
      rw [List.findIdx_cons]
      simp [ha]
    · rcases h with ⟨t, ht, hpos⟩
      rcases List.mem_cons.1 ht with rfl | hmem
      · exact absurd hpos ha
      · rcases ih ⟨t, hmem, hpos⟩ with ⟨t2, hg2, hp2⟩
        refine ⟨t2, ?_, hp2⟩
        rw [List.findIdx_cons]
        simp only [ha, decide_eq_true_eq, if_false, decide_False, cond_false]
        exact hg2

theorem aliveLen_pos (l : List Tank) (h : 0 < aliveLen l) :
    ∃ t ∈ l, 0 < t.health := by
  rw [aliveLen] at h
  rcases List.length_pos.1 h with h2
  rcases List.exists_mem_of_ne_nil _ h2 with ⟨t, ht⟩
  have := List.mem_filter.1 ht
  exact ⟨t, this.1, by simpa using this.2⟩

theorem checkGameOver_spec (s : SimState) (h : s.phase ≠ Phase.gameover)
    (hle : aliveLen s.tanks ≤ 1) :
    (checkGameOverCondition s).phase = Phase.gameover
    ∧ (aliveLen s.tanks = 1 →
        ∃ j t, (checkGameOverCondition s).currentTankIndex = some j
          ∧ s.tanks.get? j = some t ∧ 0 < t.health)
    ∧ (aliveLen s.tanks = 0 →
        (checkGameOverCondition s).currentTankIndex = none) := by
  have hle2 : (List.filter (fun t => decide (0 < t.health)) s.tanks).length ≤ 1 := hle
  rw [checkGameOverCondition, if_neg h, if_pos hle2]
  refine ⟨rfl, ?_, ?_⟩
  · intro h1
    have h1f : (List.filter (fun t => decide (0 < t.health)) s.tanks).length = 1 := h1
    rcases findIdx_alive s.tanks (aliveLen_pos s.tanks (by omega)) with ⟨t, hg, hp⟩
    refine ⟨s.tanks.findIdx (fun t => decide (0 < t.health)), t, ?_, hg, hp⟩
    simp [h1f]
  · intro h0
    have h0f : (List.filter (fun t => decide (0 < t.health)) s.tanks).length = 0 := h0
    simp [h0f]

theorem fire_proj (cosf sinf : ℚ → ℚ) (σ : Nat → ℚ) (s : SimState) (k : Nat)
    (ti : Int) :
    (fireMissileFromTank cosf sinf σ s k ti).1.tanks = s.tanks
    ∧ (fireMissileFromTank cosf sinf σ s k ti).1.wind = s.wind
    ∧ (fireMissileFromTank cosf sinf σ s k ti).1.phase = s.phase := by
  rw [fireMissileFromTank]
  split
  · exact ⟨rfl, rfl, rfl⟩
  · cases s.tanks.get? ti.toNat <;> exact ⟨rfl, rfl, rfl⟩

theorem updateMissiles_proj (W H : Nat) (sqrtq : ℚ → ℚ) (s : SimState) :
    (updateMissiles W H sqrtq s).1.tanks = s.tanks
    ∧ (updateMissiles W H sqrtq s).1.wind = s.wind
    ∧ (updateMissiles W H sqrtq s).1.phase = s.phase := ⟨rfl, rfl, rfl⟩

theorem explosionsUpdate_proj (W H : Nat) (s : SimState) :
    (explosionsUpdate W H s).tanks = s.tanks
    ∧ (explosionsUpdate W H s).wind = s.wind
    ∧ (explosionsUpdate W H s).phase = s.phase
    ∧ (explosionsUpdate W H s).explosionDuration = s.explosionDuration := by
  rw [explosionsUpdate]
  split <;> exact ⟨rfl, rfl, rfl, rfl⟩

theorem tanksDeadBranch_proj (s1 : SimState) (sp : Bool) (k : Nat) :
    (tanksDeadBranch s1 sp k).1.tanks = s1.tanks
    ∧ ((tanksDeadBranch s1 sp k).1.phase = s1.phase
        ∨ (tanksDeadBranch s1 sp k).1.phase = Phase.control) := by
  rw [tanksDeadBranch]
  cases findNextAliveTank s1.tanks
      (match s1.currentTankIndex with
       | some c => (c : Int)
       | none => -1) with
  | none => exact ⟨rfl, Or.inl rfl⟩
  | some jj => exact ⟨rfl, Or.inr rfl⟩

theorem tankPhysicsStep_health (W H : Nat) (sand : Grid) (t : Tank) :
    ((tankPhysicsStep W H sand t).1).health = t.health := by
  rw [tankPhysicsStep]
  split
  · dsimp only
    split <;> split <;> rfl
  · dsimp only
    split <;> rfl

theorem healthsOf_updateTanks (W H : Nat) (sand : Grid) (l : List Tank) :
    healthsOf (updateTanks W H sand l).1 = healthsOf l := by
  rw [updateTanks, healthsOf, healthsOf, List.map_map]
  exact List.map_congr_left (fun t _ => tankPhysicsStep_health W H sand t)

theorem fire_healths (cosf sinf : ℚ → ℚ) (σ : Nat → ℚ) (s : SimState)
    (k : Nat) (ti : Int) :
    healthsOf (fireMissileFromTank cosf sinf σ s k ti).1.tanks
      = healthsOf s.tanks := by
  rw [(fire_proj cosf sinf σ s k ti).1]

theorem fire_wind (cosf sinf : ℚ → ℚ) (σ : Nat → ℚ) (s : SimState)
    (k : Nat) (ti : Int) :
    (fireMissileFromTank cosf sinf σ s k ti).1.wind = s.wind :=
  (fire_proj cosf sinf σ s k ti).2.1

theorem updateTankControl_spec (cosf sinf : ℚ → ℚ) (piq : ℚ) (σ : Nat → ℚ)
    (keys : Keys) (s : SimState) (k : Nat) :
    healthsOf (updateTankControl cosf sinf piq σ keys s k).1.tanks
      = healthsOf s.tanks
    ∧ ((updateTankControl cosf sinf piq σ keys s k).1.phase = s.phase
        ∨ (updateTankControl cosf sinf piq σ keys s k).1.phase = Phase.missiles)
    ∧ (updateTankControl cosf sinf piq σ keys s k).1.wind = s.wind := by
  rw [updateTankControl]
  cases hci : s.currentTankIndex with
  | none => exact ⟨rfl, Or.inl rfl, rfl⟩
  | some i =>
    dsimp only
    cases hgi : s.tanks.get? i with
    | none => exact ⟨rfl, Or.inl rfl, rfl⟩
    | some t =>
      dsimp only
      split
      · refine ⟨?_, Or.inr rfl, ?_⟩
        · rw [fire_healths cosf sinf σ]
          exact healthsOf_set hgi rfl
        · rw [fire_wind cosf sinf σ]
      · exact ⟨healthsOf_set hgi rfl, Or.inl rfl, rfl⟩

theorem tanksDeadBranch_phase_ne (s1 : SimState) (sp : Bool) (k : Nat)
    (h : s1.phase ≠ Phase.gameover) :
    (tanksDeadBranch s1 sp k).1.phase ≠ Phase.gameover := by
  rcases (tanksDeadBranch_proj s1 sp k).2 with h2 | h2
  · rw [h2]; exact h
  · rw [h2]; decide

theorem phaseStep_spec (W H : Nat) (cosf sinf sqrtq : ℚ → ℚ) (piq : ℚ)
    (σ : Nat → ℚ) (keys : Keys) (s : SimState) (k : Nat) :
    healthsOf (phaseStep W H cosf sinf sqrtq piq σ keys s k).1.tanks
      = healthsOf s.tanks
    ∧ (s.phase ≠ Phase.gameover →
        (phaseStep W H cosf sinf sqrtq piq σ keys s k).1.phase ≠ Phase.gameover) := by
  rw [phaseStep]
  cases hph : s.phase with
  | missiles =>
    dsimp only
    split
    · exact ⟨congrArg healthsOf (updateMissiles_proj W H sqrtq s).1, fun _ => by simp⟩
    · split
      · refine ⟨?_, fun _ => by simp⟩
        rw [(advance_proj (updateMissiles W H sqrtq s).1).1]
        exact congrArg healthsOf (updateMissiles_proj W H sqrtq s).1
      · refine ⟨congrArg healthsOf (updateMissiles_proj W H sqrtq s).1, fun _ => ?_⟩
        rw [(updateMissiles_proj W H sqrtq s).2.2, hph]
        decide
  | explosions =>
    dsimp only
    split
    · refine ⟨?_, fun _ => by simp⟩
      rw [(advance_proj _).1]
      exact congrArg healthsOf (explosionsUpdate_proj W H s).1
    · refine ⟨congrArg healthsOf (explosionsUpdate_proj W H s).1, fun _ => ?_⟩
      rw [(explosionsUpdate_proj W H s).2.2.1, hph]
      decide
  | sand =>
    dsimp only
    split
    · split
      · exact ⟨rfl, fun _ => by simp⟩
      · exact ⟨rfl, fun _ => by simp⟩
    · exact ⟨rfl, fun _ => by simp⟩
  | idle => exact ⟨rfl, fun _ => by simp⟩
  | tanks =>
    dsimp only
    split
    · cases s.currentTankIndex with
      | none =>
        dsimp only
        refine ⟨?_, fun _ => tanksDeadBranch_phase_ne _ keys.spacePressed k (by simp)⟩
        rw [(tanksDeadBranch_proj _ keys.spacePressed k).1]
        exact healthsOf_updateTanks W H s.sand s.tanks
      | some i =>
        dsimp only
        cases ((updateTanks W H s.sand s.tanks).1).get? i with
        | none =>
          dsimp only
          refine ⟨?_, fun _ => tanksDeadBranch_phase_ne _ keys.spacePressed k (by simp)⟩
          rw [(tanksDeadBranch_proj _ keys.spacePressed k).1]
          exact healthsOf_updateTanks W H s.sand s.tanks
        | some t =>
          dsimp only
          split
          · exact ⟨healthsOf_updateTanks W H s.sand s.tanks, fun _ => by simp⟩
          · refine ⟨?_, fun _ => tanksDeadBranch_phase_ne _ keys.spacePressed k (by simp)⟩
            rw [(tanksDeadBranch_proj _ keys.spacePressed k).1]
            exact healthsOf_updateTanks W H s.sand s.tanks
    · exact ⟨healthsOf_updateTanks W H s.sand s.tanks, fun _ => by simp⟩
  | control =>
    refine ⟨(updateTankControl_spec cosf sinf piq σ keys s k).1, fun _ => ?_⟩
    rcases (updateTankControl_spec cosf sinf piq σ keys s k).2.1 with h2 | h2
    · rw [h2, hph]; decide
    · rw [h2]; decide
  | gameover => exact ⟨rfl, fun hno => absurd rfl hno⟩

theorem phaseStep_gameover (W H : Nat) (cosf sinf sqrtq : ℚ → ℚ) (piq : ℚ)
    (σ : Nat → ℚ) (keys : Keys) (s : SimState) (k : Nat)
    (h : s.phase = Phase.gameover) :
    phaseStep W H cosf sinf sqrtq piq σ keys s k = (s, keys.spacePressed, k) := by
  rw [phaseStep, h]

theorem phaseStep_missiles_wind (W H : Nat) (cosf sinf sqrtq : ℚ → ℚ) (piq : ℚ)
    (σ : Nat → ℚ) (keys : Keys) (s : SimState) (k : Nat)
    (h : s.phase = Phase.missiles) :
    (phaseStep W H cosf sinf sqrtq piq σ keys s k).1.wind = s.wind := by
  rw [phaseStep, h]
  dsimp only
  split
  · exact (updateMissiles_proj W H sqrtq s).2.1
  · split
    · exact ((advance_proj (updateMissiles W H sqrtq s).1).2.2.1).trans
        (updateMissiles_proj W H sqrtq s).2.1
    · exact (updateMissiles_proj W H sqrtq s).2.1

theorem updateSimulation_eq (W H : Nat) (cosf sinf sqrtq : ℚ → ℚ) (piq : ℚ)
    (σ : Nat → ℚ) (keys : Keys) (s : SimState) (k : Nat) :
    updateSimulation W H cosf sinf sqrtq piq σ keys s k
      = (checkGameOverCondition (phaseStep W H cosf sinf sqrtq piq σ keys s k).1,
          (phaseStep W H cosf sinf sqrtq piq σ keys s k).2.1,
          (phaseStep W H cosf sinf sqrtq piq σ keys s k).2.2) := rfl

/-!
Concrete states used as counterexamples and witnesses.
-/

/-- A dead tank (health 0). -/
def tankA : Tank := { x := 0, y := 0, angle := 0, power := 50, health := 0 }

/-- An alive tank (health 1). -/
def tankB : Tank := { x := 0, y := 0, angle := 0, power := 50, health := 1 }

/-- No keyboard input, no pending fire press. -/
def keysNone : Keys :=
  { left := false, right := false, up := false, down := false, spacePressed := false }

/-- A state with an empty tank roster but a still-set turn cursor. -/
def stateEmptyRoster : SimState :=
  { phase := Phase.idle, missiles := [], explosions := [], explosionDuration := 0,
    wind := 0, sand := fun _ => false, tanks := [], currentTankIndex := some 0 }

/-- A roster of one dead tank, no cursor. -/
def stateOneDead : SimState :=
  { phase := Phase.idle, missiles := [], explosions := [], explosionDuration := 0,
    wind := 0, sand := fun _ => false, tanks := [tankA], currentTankIndex := none }

/-- A dead tank and an alive tank, in the idle phase. -/
def stateTwoTanks : SimState :=
  { phase := Phase.idle, missiles := [], explosions := [], explosionDuration := 0,
    wind := 0, sand := fun _ => false, tanks := [tankA, tankB],
    currentTankIndex := some 1 }

/-- A state already in the gameover phase. -/
def stateGameOver : SimState :=
  { phase := Phase.gameover, missiles := [], explosions := [], explosionDuration := 0,
    wind := 0, sand := fun _ => false, tanks := [], currentTankIndex := none }

/-- A missiles-phase state with one alive tank and wind 7. -/
def stateWind7 : SimState :=
  { phase := Phase.missiles, missiles := [], explosions := [], explosionDuration := 0,
    wind := 7, sand := fun _ => false, tanks := [tankB], currentTankIndex := some 0 }

/-- A control-phase state with an empty roster. -/
def stateNoTanks : SimState :=
  { phase := Phase.control, missiles := [], explosions := [], explosionDuration := 0,
    wind := 0, sand := fun _ => false, tanks := [], currentTankIndex := none }

/-- C7 counterexample: on an empty roster, `advanceToNextTankTurn` returns with
the stale cursor still set (here `some 0`), so a present cursor need not refer
to any tank with positive health, contradicting the claim as stated "for every
roster and every prior cursor value". -/
theorem c7_counterexample_empty_roster_keeps_stale_cursor :
    (advanceToNextTankTurn stateEmptyRoster).currentTankIndex = some 0
    ∧ stateEmptyRoster.tanks = [] := ⟨rfl, rfl⟩

/-- C7 (amended: nonempty roster): after `advanceToNextTankTurn`, if all tanks
are dead the cursor becomes absent; if some tank is alive the cursor is
present; and a present cursor points at an alive tank and is the first index
strictly after the start cursor (the previous cursor, or `-1` when unset) in
wraparound order whose tank is alive. -/
theorem c7_amended_turn_advancement (s : SimState) (hne : s.tanks ≠ []) :
    ((∀ t ∈ s.tanks, ¬ 0 < t.health) →
      (advanceToNextTankTurn s).currentTankIndex = none)
    ∧ ((∃ t ∈ s.tanks, 0 < t.health) →
      ∃ j, (advanceToNextTankTurn s).currentTankIndex = some j)
    ∧ (∀ j, (advanceToNextTankTurn s).currentTankIndex = some j →
      (∃ t, s.tanks.get? j = some t ∧ 0 < t.health)
      ∧ ∃ i : Nat, 1 ≤ i ∧ i ≤ s.tanks.length
          ∧ (((cursorStart s.currentTankIndex + i) % (s.tanks.length : Int)).toNat = j
          ∧ ∀ i1 : Nat, 1 ≤ i1 → i1 < i → ∀ t1,
              s.tanks.get?
                  (((cursorStart s.currentTankIndex + i1) % (s.tanks.length : Int)).toNat)
                = some t1 → ¬ 0 < t1.health)) := by
  rw [advance_eq s hne]
  dsimp only
  exact ⟨findNextAliveTank_none s.tanks (cursorStart s.currentTankIndex),
    findNextAliveTank_isSome s.tanks (cursorStart s.currentTankIndex),
    findNextAliveTank_some s.tanks (cursorStart s.currentTankIndex)⟩

theorem c7_amended_turn_advancement_witness :
    stateOneDead.tanks ≠ []
    ∧ (advanceToNextTankTurn stateOneDead).currentTankIndex = none := by
  refine ⟨by simp [stateOneDead], ?_⟩
  refine (c7_amended_turn_advancement stateOneDead (by simp [stateOneDead])).1 ?_
  intro t ht
  simp only [stateOneDead, List.mem_singleton] at ht
  subst ht
  simp [tankA]

/-- C8: after one tick of `updateSimulation` from any non-gameover state with
at most one alive tank, the phase is `gameover`, the cursor names an alive
tank of the original roster when exactly one is alive and is absent when none
is; and `gameover` is terminal: a tick from a gameover state returns the
state, key flag and random counter unchanged. -/
theorem c8_elimination_check_and_terminal_gameover :
    (∀ (W H : Nat) (cosf sinf sqrtq : ℚ → ℚ) (piq : ℚ) (σ : Nat → ℚ)
        (keys : Keys) (s : SimState) (k : Nat),
      s.phase ≠ Phase.gameover → aliveLen s.tanks ≤ 1 →
      (updateSimulation W H cosf sinf sqrtq piq σ keys s k).1.phase = Phase.gameover
      ∧ (aliveLen s.tanks = 1 → ∃ j t,
          (updateSimulation W H cosf sinf sqrtq piq σ keys s k).1.currentTankIndex
            = some j
          ∧ s.tanks.get? j = some t ∧ 0 < t.health)
      ∧ (aliveLen s.tanks = 0 →
          (updateSimulation W H cosf sinf sqrtq piq σ keys s k).1.currentTankIndex
            = none))
    ∧ (∀ (W H : Nat) (cosf sinf sqrtq : ℚ → ℚ) (piq : ℚ) (σ : Nat → ℚ)
        (keys : Keys) (s : SimState) (k : Nat),
      s.phase = Phase.gameover →
      updateSimulation W H cosf sinf sqrtq piq σ keys s k
        = (s, keys.spacePressed, k)) := by
  constructor
  · intro W H cosf sinf sqrtq piq σ keys s k hph hle
    have hh := (phaseStep_spec W H cosf sinf sqrtq piq σ keys s k).1
    have hpn := (phaseStep_spec W H cosf sinf sqrtq piq σ keys s k).2 hph
    have halive : aliveLen (phaseStep W H cosf sinf sqrtq piq σ keys s k).1.tanks
        = aliveLen s.tanks := aliveLen_congr hh
    have hcgo := checkGameOver_spec (phaseStep W H cosf sinf sqrtq piq σ keys s k).1
      hpn (by rw [halive]; exact hle)
    refine ⟨hcgo.1, ?_, ?_⟩
    · intro h1
      rcases hcgo.2.1 (by rw [halive]; exact h1) with ⟨j, t2, hcur, hget, hpos⟩
      rcases healthsOf_get? hh hget with ⟨t1, hget1, hh1⟩
      exact ⟨j, t1, hcur, hget1, by rw [hh1]; exact hpos⟩
    · intro h0
      exact hcgo.2.2 (by rw [halive]; exact h0)
  · intro W H cosf sinf sqrtq piq σ keys s k h
    rw [updateSimulation_eq, phaseStep_gameover W H cosf sinf sqrtq piq σ keys s k h]
    dsimp only
    rw [checkGameOver_of_gameover s h]

theorem c8_elimination_check_and_terminal_gameover_witness :
    stateTwoTanks.phase ≠ Phase.gameover
    ∧ aliveLen stateTwoTanks.tanks ≤ 1
    ∧ (updateSimulation 1 1 (fun _ => 0) (fun _ => 0) (fun _ => 0) 0 (fun _ => 0)
        keysNone stateTwoTanks 0).1.phase = Phase.gameover
    ∧ stateGameOver.phase = Phase.gameover
    ∧ updateSimulation 1 1 (fun _ => 0) (fun _ => 0) (fun _ => 0) 0 (fun _ => 0)
        keysNone stateGameOver 0 = (stateGameOver, false, 0) := by
  have halive : aliveLen stateTwoTanks.tanks ≤ 1 := by
    simp [aliveLen, stateTwoTanks, tankA, tankB, List.filter]
  refine ⟨by simp [stateTwoTanks], halive, ?_, rfl, ?_⟩
  · exact (c8_elimination_check_and_terminal_gameover.1 1 1 (fun _ => 0) (fun _ => 0)
      (fun _ => 0) 0 (fun _ => 0) keysNone stateTwoTanks 0
      (by simp [stateTwoTanks]) halive).1
  · exact c8_elimination_check_and_terminal_gameover.2 1 1 (fun _ => 0) (fun _ => 0)
      (fun _ => 0) 0 (fun _ => 0) keysNone stateGameOver 0 rfl

/-- C9 counterexample: `fireMissileFromTank` does not regenerate the wind —
firing from a state with wind 7 leaves wind 7 — while the single wind
regeneration that exists in the code (`generateRandomMissiles`) would have
replaced it by `(random - 1/2) * (1/5)`, a different value under the all-zero
random stream. -/
theorem c9_counterexample_fire_does_not_regenerate_wind :
    (fireMissileFromTank (fun _ => 0) (fun _ => 0) (fun _ => 0)
        stateWind7 0 0).1.wind = stateWind7.wind
    ∧ (generateRandomMissiles 1 1 (fun _ => 0) (fun _ => 0) 0 (fun _ => 0)
        stateWind7 0).1.wind ≠ stateWind7.wind := by
  refine ⟨fire_wind (fun _ => 0) (fun _ => 0) (fun _ => 0) stateWind7 0 0, ?_⟩
  show (((fun _ => (0 : ℚ)) 0) - 1 / 2) * (1 / 5) ≠ stateWind7.wind
  show ((0 : ℚ) - 1 / 2) * (1 / 5) ≠ 7
  norm_num

/-- C9 (amended): only `generateRandomMissiles` regenerates the wind, setting
it to `(random - 1/2) * (1/5)`; `fireMissileFromTank` leaves the wind
unchanged; and the wind is constant across missiles-phase ticks of
`updateSimulation`. -/
theorem c9_amended_wind_regeneration :
    (∀ (W H : Nat) (cosf sinf : ℚ → ℚ) (piq : ℚ) (σ : Nat → ℚ)
        (s : SimState) (k : Nat),
      (generateRandomMissiles W H cosf sinf piq σ s k).1.wind
        = (σ k - 1 / 2) * (1 / 5))
    ∧ (∀ (cosf sinf : ℚ → ℚ) (σ : Nat → ℚ) (s : SimState) (k : Nat) (ti : Int),
      (fireMissileFromTank cosf sinf σ s k ti).1.wind = s.wind)
    ∧ (∀ (W H : Nat) (cosf sinf sqrtq : ℚ → ℚ) (piq : ℚ) (σ : Nat → ℚ)
        (keys : Keys) (s : SimState) (k : Nat), s.phase = Phase.missiles →
      (updateSimulation W H cosf sinf sqrtq piq σ keys s k).1.wind = s.wind) := by
  refine ⟨fun _ _ _ _ _ _ _ _ => rfl, fire_wind, ?_⟩
  intro W H cosf sinf sqrtq piq σ keys s k h
  rw [updateSimulation_eq]
  dsimp only
  exact (checkGameOver_wind _).trans
    (phaseStep_missiles_wind W H cosf sinf sqrtq piq σ keys s k h)

theorem c9_amended_wind_regeneration_witness :
    stateWind7.phase = Phase.missiles
    ∧ (updateSimulation 1 1 (fun _ => 0) (fun _ => 0) (fun _ => 0) 0 (fun _ => 0)
        keysNone stateWind7 0).1.wind = stateWind7.wind :=
  ⟨rfl, c9_amended_wind_regeneration.2.2 1 1 (fun _ => 0) (fun _ => 0) (fun _ => 0)
    0 (fun _ => 0) keysNone stateWind7 0 rfl⟩

/-- C10 counterexample: firing with an invalid index (0 on an empty roster)
returns the state and random counter unchanged — the call is silently
ignored, it does not fail. -/
theorem c10_counterexample_invalid_fire_silently_ignored :
    fireMissileFromTank (fun _ => 0) (fun _ => 0) (fun _ => 0)
      stateNoTanks 0 0 = (stateNoTanks, 0) := rfl

/-- C10 (amended): `fireMissileFromTank` with an out-of-range tank index
(at or beyond the roster length, or negative) is a silent no-op: it returns
the state and the random counter unchanged. -/
theorem c10_amended_invalid_fire_is_silent_noop (cosf sinf : ℚ → ℚ)
    (σ : Nat → ℚ) (s : SimState) (k : Nat) (ti : Int)
    (h : ti ≥ (s.tanks.length : Int) ∨ ti < 0) :
    fireMissileFromTank cosf sinf σ s k ti = (s, k) := by
  rw [fireMissileFromTank, if_pos h]

theorem c10_amended_invalid_fire_is_silent_noop_witness :
    ((-3 : Int) ≥ (stateWind7.tanks.length : Int) ∨ (-3 : Int) < 0)
    ∧ fireMissileFromTank (fun _ => 0) (fun _ => 0) (fun _ => 0)
        stateWind7 4 (-3) = (stateWind7, 4) :=
  ⟨Or.inr (by decide),
    c10_amended_invalid_fire_is_silent_noop (fun _ => 0) (fun _ => 0) (fun _ => 0)
      stateWind7 4 (-3) (Or.inr (by decide))⟩

end Bernard
